import Mathlib

/-!
A verification development for the Hypatia VSCode extension's
style-automation reconciler (src/sources/style.js, first revision, and its
utility module, src/unnamed/part_000x "utils.js").

JavaScript configuration values are embedded as a JSON-like `Value` type
(`undefined` is a first-class member because the VSCode configuration API
uses it for "absent").  The host configuration store is embedded as four
association-list tiers (defaults, Global, Workspace, WorkspaceFolder); the
extension's persistent `globalState` is an association list from keys to
values.  All operations of style.js are translated as pure state-passing
functions; an asynchronous write that may be rejected by the host is a
function returning `World × Bool` where the boolean is "the write threw".
-/

/-- A JavaScript (JSON-like) value, as stored in the VSCode configuration
store and in the extension's `globalState`.  `undef` models JavaScript
`undefined` (a key that is not set). -/
inductive Value where
  | undef : Value
  | null : Value
  | bool : Bool → Value
  | num : Int → Value
  | str : String → Value
  | arr : List Value → Value
  | obj : List (String × Value) → Value

mutual
/-- Structural (constructor-wise) equality test on `Value`. -/
def Value.beq : Value → Value → Bool
  | Value.undef, Value.undef => true
  | Value.null, Value.null => true
  | Value.bool x, Value.bool y => x == y
  | Value.num x, Value.num y => x == y
  | Value.str x, Value.str y => x == y
  | Value.arr xs, Value.arr ys => Value.beqList xs ys
  | Value.obj fs, Value.obj gs => Value.beqFields fs gs
  | _, _ => false
/-- Structural equality of value lists. -/
def Value.beqList : List Value → List Value → Bool
  | [], [] => true
  | x :: xs, y :: ys => Value.beq x y && Value.beqList xs ys
  | _, _ => false
/-- Structural equality of field lists. -/
def Value.beqFields : List (String × Value) → List (String × Value) → Bool
  | [], [] => true
  | (k, v) :: fs, (l, w) :: gs => k == l && Value.beq v w && Value.beqFields fs gs
  | _, _ => false
end

mutual
/-- `Value.beq` decides propositional equality. -/
def Value.beq_iff : ∀ a b : Value, Value.beq a b = true ↔ a = b
  | Value.undef, b => by cases b <;> simp [Value.beq]
  | Value.null, b => by cases b <;> simp [Value.beq]
  | Value.bool x, b => by cases b <;> simp [Value.beq]
  | Value.num x, b => by cases b <;> simp [Value.beq]
  | Value.str x, b => by cases b <;> simp [Value.beq]
  | Value.arr xs, b => by
      cases b <;> simp [Value.beq]
      exact Value.beqList_iff xs _
  | Value.obj fs, b => by
      cases b <;> simp [Value.beq]
      exact Value.beqFields_iff fs _
/-- `Value.beqList` decides propositional equality. -/
def Value.beqList_iff : ∀ xs ys : List Value, Value.beqList xs ys = true ↔ xs = ys
  | [], ys => by cases ys <;> simp [Value.beqList]
  | x :: xs, ys => by
      cases ys with
      | nil => simp [Value.beqList]
      | cons y ys =>
          simp [Value.beqList, Value.beq_iff x y, Value.beqList_iff xs ys]
/-- `Value.beqFields` decides propositional equality. -/
def Value.beqFields_iff :
    ∀ fs gs : List (String × Value), Value.beqFields fs gs = true ↔ fs = gs
  | [], gs => by cases gs <;> simp [Value.beqFields]
  | (k, v) :: fs, gs => by
      cases gs with
      | nil => simp [Value.beqFields]
      | cons q gs =>
          obtain ⟨l, w⟩ := q
          simp [Value.beqFields, Value.beq_iff v w, Value.beqFields_iff fs gs,
            and_assoc, Prod.ext_iff]
end

instance : BEq Value := ⟨Value.beq⟩

instance : LawfulBEq Value where
  eq_of_beq h := (Value.beq_iff _ _).mp h
  rfl := (Value.beq_iff _ _).mpr rfl

instance : DecidableEq Value := fun a b =>
  decidable_of_iff (Value.beq a b = true) (Value.beq_iff a b)

/-- JavaScript truthiness test (`!v` is `!falsy v`); used by
`setWorkbenchTheme` (`if (!current || ...) return`). -/
def falsy : Value → Bool
  | Value.undef => true
  | Value.null => true
  | Value.bool b => !b
  | Value.num n => n == 0
  | Value.str s => s == ""
  | _ => false

/-- Property access `v?.k` on a JavaScript value: field lookup on plain
objects, `undefined` on everything else (arrays and strings have no
named properties that the source reads). -/
def getField : Value → String → Value
  | Value.obj fs, k =>
    match fs.find? (fun p => p.1 == k) with
    | some p => p.2
    | none => Value.undef
  | _, _ => Value.undef

/-- Property assignment `o.k = v` on a plain object: an existing key keeps
its position and gets the new value, a new key is appended (JavaScript
insertion order). -/
def setFields (fs : List (String × Value)) (k : String) (v : Value) :
    List (String × Value) :=
  if fs.any (fun p => p.1 == k) then
    fs.map (fun p => if p.1 == k then (k, v) else p)
  else fs ++ [(k, v)]

/-- The own enumerable properties of a value, as `Object.assign` sees them:
field list of an object, index properties of an array, character index
properties of a string, nothing for primitives. -/
def ownFields : Value → List (String × Value)
  | Value.obj fs => fs
  | Value.arr xs => xs.enum.map (fun p => (toString p.1, p.2))
  | Value.str s => s.toList.enum.map (fun p => (toString p.1, Value.str p.2.toString))
  | _ => []

/-- `Object.assign({}, base, updates)` restricted to a plain-object base:
apply the update pairs left to right. -/
def assignFields (fs : List (String × Value)) :
    List (String × Value) → List (String × Value)
  | [] => fs
  | (k, v) :: rest => assignFields (setFields fs k v) rest

/-- `Object.assign({}, o, upd)` where `o` is already a plain object. -/
def objAssign (o : Value) (upd : List (String × Value)) : Value :=
  Value.obj (assignFields (ownFields o) upd)

/-- utils.js `asPlainObject`: a value that is an object and not an array
passes through; everything else becomes the `{}` fallback. -/
def asPlainObject (v : Value) : Value :=
  match v with
  | Value.obj fs => Value.obj fs
  | _ => Value.obj []

mutual
/-- String coercion `String(v)` of a JavaScript value (used by
`getThemeVariant` / `getSemanticMode` on the raw setting). -/
def jsToString : Value → String
  | Value.undef => "undefined"
  | Value.null => "null"
  | Value.bool b => cond b "true" "false"
  | Value.num n => toString n
  | Value.str s => s
  | Value.obj _ => "[object Object]"
  | Value.arr xs => String.intercalate "," (jsElemStrings xs)
/-- Array elements under `Array.prototype.toString`: `null`/`undefined`
render as the empty string. -/
def jsElemStrings : List Value → List String
  | [] => []
  | Value.undef :: xs => "" :: jsElemStrings xs
  | Value.null :: xs => "" :: jsElemStrings xs
  | x :: xs => jsToString x :: jsElemStrings xs
end

/-- JavaScript `s.startsWith(pre)`. -/
def jsStartsWith (s pre : String) : Bool :=
  pre.data.isPrefixOf s.data

mutual
/-- Structural part of Node's `isDeepStrictEqual`: same type tag, arrays
pairwise equal, objects with the same key set and deeply-equal values
(key order irrelevant). -/
def deepEqualCore : Value → Value → Bool
  | Value.undef, Value.undef => true
  | Value.null, Value.null => true
  | Value.bool a, Value.bool b => a == b
  | Value.num a, Value.num b => a == b
  | Value.str a, Value.str b => a == b
  | Value.arr xs, Value.arr ys => xs.length == ys.length && deepEqualList xs ys
  | Value.obj fs, Value.obj gs =>
      fs.length == gs.length && deepEqualFields fs gs &&
      gs.all (fun q => fs.any (fun p => p.1 == q.1))
  | _, _ => false
/-- Pairwise deep equality of array elements. -/
def deepEqualList : List Value → List Value → Bool
  | [], [] => true
  | x :: xs, y :: ys => deepEqualCore x y && deepEqualList xs ys
  | _, _ => false
/-- Every field of the first object is matched by a deeply-equal field in
the second. -/
def deepEqualFields : List (String × Value) → List (String × Value) → Bool
  | [], _ => true
  | (k, v) :: fs, gs =>
      (match gs.find? (fun q => q.1 == k) with
       | some q => deepEqualCore v q.2
       | none => false) && deepEqualFields fs gs
end

/-- Node `isDeepStrictEqual` (util), as used by utils.js `updateSetting` to
skip redundant writes.  Node first tests reference equality (`a === b`);
structural identity of our immutable embedding over-approximates that
shortcut and agrees with the deep comparison on all JavaScript-realisable
(duplicate-key-free) values. -/
def isDeepStrictEqual (v w : Value) : Bool :=
  v == w || deepEqualCore v w

/-! ## Configuration store, targets and the extension world -/

/-- vscode.ConfigurationTarget. -/
inductive ConfigurationTarget where
  | Global : ConfigurationTarget
  | Workspace : ConfigurationTarget
  | WorkspaceFolder : ConfigurationTarget
deriving DecidableEq

/-- utils.js `parseTarget` (part_007 lines 989-994): converts a persisted
value back into a `ConfigurationTarget`; anything but the three exact
strings yields `undefined` (here `none`). -/
def parseTarget (value : Value) : Option ConfigurationTarget :=
  if value = Value.str "WorkspaceFolder" then some ConfigurationTarget.WorkspaceFolder
  else if value = Value.str "Workspace" then some ConfigurationTarget.Workspace
  else if value = Value.str "Global" then some ConfigurationTarget.Global
  else none

/-- utils.js `serialiseTarget` (part_007 lines 1019-1025): the `switch`
sends `WorkspaceFolder` and `Workspace` to their names and everything else
to `"Global"` (the `default` arm). -/
def serialiseTarget (target : ConfigurationTarget) : String :=
  match target with
  | ConfigurationTarget.WorkspaceFolder => "WorkspaceFolder"
  | ConfigurationTarget.Workspace => "Workspace"
  | _ => "Global"

/-- One tier of the configuration store: an association list from
(section, key) to value.  A missing pair reads as `undefined`. -/
def tierGet (l : List ((String × String) × Value)) (sec key : String) : Value :=
  match l.find? (fun p => p.1.1 == sec && p.1.2 == key) with
  | some p => p.2
  | none => Value.undef

/-- Set (section, key) to a value in a tier. -/
def tierSet (l : List ((String × String) × Value)) (sec key : String)
    (v : Value) : List ((String × String) × Value) :=
  ((sec, key), v) :: l.filter (fun p => !(p.1.1 == sec && p.1.2 == key))

/-- The host's hierarchical configuration store: package defaults plus the
Global / Workspace / WorkspaceFolder tiers. -/
structure Store where
  dfltV : List ((String × String) × Value)
  globalV : List ((String × String) × Value)
  workspaceV : List ((String × String) × Value)
  folderV : List ((String × String) × Value)
deriving DecidableEq

/-- The per-tier inspection record returned by
`WorkspaceConfiguration.inspect` (utils.js `inspectKey`). -/
structure Inspected where
  globalValue : Value
  workspaceValue : Value
  workspaceFolderValue : Value
deriving DecidableEq

/-- utils.js `inspectKey`: the raw value of the key at each tier. -/
def inspectKey (st : Store) (sec key : String) : Inspected :=
  { globalValue := tierGet st.globalV sec key
    workspaceValue := tierGet st.workspaceV sec key
    workspaceFolderValue := tierGet st.folderV sec key }

/-- utils.js `valueAtTarget` (part_007 lines 975-980). -/
def valueAtTarget (inspected : Inspected) (target : ConfigurationTarget) : Value :=
  if target = ConfigurationTarget.WorkspaceFolder then inspected.workspaceFolderValue
  else if target = ConfigurationTarget.Workspace then inspected.workspaceValue
  else inspected.globalValue

/-- `WorkspaceConfiguration.get(key)`: the effective merged value, most
specific tier first, falling back to the package default. -/
def getMerged (st : Store) (sec key : String) : Value :=
  if tierGet st.folderV sec key ≠ Value.undef then tierGet st.folderV sec key
  else if tierGet st.workspaceV sec key ≠ Value.undef then tierGet st.workspaceV sec key
  else if tierGet st.globalV sec key ≠ Value.undef then tierGet st.globalV sec key
  else tierGet st.dfltV sec key

/-- `WorkspaceConfiguration.get(key, default)`: the supplied default is
used when the merged value is `undefined`. -/
def cfgGet (st : Store) (sec key : String) (d : Value) : Value :=
  if getMerged st sec key = Value.undef then d else getMerged st sec key

/-- utils.js `pickTargetForKey` (part_007 lines 1006-1011): most specific
tier that defines the key, defaulting to Global. -/
def pickTargetForKey (st : Store) (sec key : String) : ConfigurationTarget :=
  if (inspectKey st sec key).workspaceFolderValue ≠ Value.undef then
    ConfigurationTarget.WorkspaceFolder
  else if (inspectKey st sec key).workspaceValue ≠ Value.undef then
    ConfigurationTarget.Workspace
  else ConfigurationTarget.Global

/-- `WorkspaceConfiguration.update(key, value, target)`: replace the value
at one tier (writing `undefined` clears the key). -/
def writeAt (st : Store) (sec key : String) (target : ConfigurationTarget)
    (v : Value) : Store :=
  match target with
  | ConfigurationTarget.Global => { st with globalV := tierSet st.globalV sec key v }
  | ConfigurationTarget.Workspace => { st with workspaceV := tierSet st.workspaceV sec key v }
  | ConfigurationTarget.WorkspaceFolder => { st with folderV := tierSet st.folderV sec key v }

/-- The mutable world the reconciler acts on: the host configuration
store, the extension's persistent `globalState`, the `switchingRef` flag,
and a log of the `config.update` calls issued to the host. -/
structure World where
  store : Store
  gstate : List (String × Value)
  switching : Bool
  writeLog : List (String × String × ConfigurationTarget × Value)
deriving DecidableEq

/-- utils.js `gsGet`: `globalState.get(k, d)` returns the default when the
stored value is `undefined`/absent. -/
def gsGetW (w : World) (k : String) (d : Value) : Value :=
  match w.gstate.find? (fun p => p.1 == k) with
  | some p => if p.2 = Value.undef then d else p.2
  | none => d

/-- utils.js `gsSet`: `globalState.update(k, v)` (storing `undefined`
removes the key). -/
def gsSetW (w : World) (k : String) (v : Value) : World :=
  { w with gstate := (k, v) :: w.gstate.filter (fun p => p.1 != k) }

/-- utils.js `updateSetting` (part_007 lines 1040-1060), with the host
update modelled atomically: resolve the target (degrading a
WorkspaceFolder request to Workspace when no scope is given), skip the
write when the value at the resolved tier is already `isDeepStrictEqual`
to the new value, and otherwise issue the host update with the switching
flag held for its duration (hence `switching = false` afterwards: the
`finally` clears it on success and on rejection alike).  `hostOk = false`
makes the host reject the write: the update call is still issued (logged)
but the store is unchanged and the returned boolean reports the throw. -/
def updateSettingE (sec key : String) (v : Value)
    (target : Option ConfigurationTarget) (scopeDefined : Bool)
    (hostOk : Bool) (w : World) : World × Bool :=
  let t0 := target.getD (pickTargetForKey w.store sec key)
  let t := if t0 = ConfigurationTarget.WorkspaceFolder ∧ ¬ scopeDefined then
    ConfigurationTarget.Workspace else t0
  if isDeepStrictEqual (valueAtTarget (inspectKey w.store sec key) t) v then
    (w, false)
  else if hostOk then
    ({ w with store := writeAt w.store sec key t v
              switching := false
              writeLog := w.writeLog ++ [(sec, key, t, v)] }, false)
  else
    ({ w with switching := false
              writeLog := w.writeLog ++ [(sec, key, t, v)] }, true)

/-! ## Rule-list helpers (utils.js) and style.js configuration getters -/

/-- Property assignment `o.k = v` at the `Value` level (the source only
assigns to plain objects). -/
def setFieldV (o : Value) (k : String) (v : Value) : Value :=
  match o with
  | Value.obj fs => Value.obj (setFields fs k v)
  | x => x

/-- Is `r` a rule whose `name` is a string starting with the given name
prefix?  (The shared predicate of the three rule-list helpers.) -/
def ruleIsMarked (namePfx : String) (r : Value) : Bool :=
  match getField r "name" with
  | Value.str s => jsStartsWith s namePfx
  | _ => false

/-- utils.js `hasRulesWithNamePrefix` (part_007 lines 1185-1188): `false`
for any non-array input, otherwise `some` over the marked-rule test. -/
def hasRulesWithNamePfx (rules : Value) (namePfx : String) : Bool :=
  match rules with
  | Value.arr rs => rs.any (fun r => ruleIsMarked namePfx r)
  | _ => false

/-- utils.js `stripRulesWithNamePrefix` (part_007 lines 1196-1199): `[]`
for any non-array input, otherwise `filter` dropping the marked rules. -/
def stripRulesWithNamePfx (rules : Value) (namePfx : String) : List Value :=
  match rules with
  | Value.arr rs => rs.filter (fun r => !(ruleIsMarked namePfx r))
  | _ => []

/-- One clone step of `cloneTextMateRulesWithInjectedNames`: shallow-copy
the rule, overwrite `name` with `prefix:index`, shallow-copy an array
`scope` (identity at value level) and an object-typed `settings`
(`Object.assign({}, settings)`, which turns an array into an indexed
object). -/
def cloneRule (namePfx : String) (i : Nat) (r : Value) : Value :=
  let c0 := Value.obj (ownFields r)
  let c1 := setFieldV c0 "name" (Value.str (namePfx ++ ":" ++ toString i))
  let c2 := match getField c1 "scope" with
    | Value.arr xs => setFieldV c1 "scope" (Value.arr xs)
    | _ => c1
  match getField c2 "settings" with
  | Value.obj fs => setFieldV c2 "settings" (Value.obj fs)
  | Value.arr xs => setFieldV c2 "settings" (Value.obj (ownFields (Value.arr xs)))
  | _ => c2

/-- utils.js `cloneTextMateRulesWithInjectedNames` (part_007 lines
1208-1219): `[]` for any non-array input, otherwise clone each rule with
an injected `prefix:index` name. -/
def cloneTextMateRulesWithInjectedNames (rules : Value) (namePfx : String) :
    List Value :=
  match rules with
  | Value.arr rs => rs.enum.map (fun p => cloneRule namePfx p.1 p.2)
  | _ => []

/-- utils.js `normaliseEnum`. -/
def normaliseEnum (value : String) (allowed : List String) (fallback : String) :
    String :=
  if allowed.contains value then value else fallback

/-- style.js `INJECTED_RULE_PREFIX`. -/
def INJECTED_RULE_PFX : String := "hypatia_autotokens"

/-- style.js `buildInjectedRules`. -/
def buildInjectedRules (themeTokenColors : Value) : List Value :=
  cloneTextMateRulesWithInjectedNames themeTokenColors INJECTED_RULE_PFX

/-- style.js `stripInjectedRules`. -/
def stripInjectedRules (rules : Value) : List Value :=
  stripRulesWithNamePfx rules INJECTED_RULE_PFX

/-- style.js `hasInjectedRules`. -/
def hasInjectedRules (rules : Value) : Bool :=
  hasRulesWithNamePfx rules INJECTED_RULE_PFX

/-- The environment the style operations read but never write: the host's
active colour-theme kind and the token-colour rules obtained from the two
bundled theme files (style.js `readTokenColorsFromThemeFile`, keyed by the
resolved variant string). -/
structure Env where
  hostThemeLight : Bool
  themeRules : String → List Value

/-- style.js `getAutoThemeEnabled`: `styleCfg.get("autotheme", false) === true`. -/
def getAutoThemeEnabled (w : World) : Bool :=
  cfgGet w.store "hypatia.style" "autotheme" (Value.bool false) == Value.bool true

/-- style.js `getAutoTokensEnabled`: `styleCfg.get("autotokens", true) === true`. -/
def getAutoTokensEnabled (w : World) : Bool :=
  cfgGet w.store "hypatia.style" "autotokens" (Value.bool true) == Value.bool true

/-- style.js `getThemeVariant`: normalise `String(raw ?? "auto")` against
the three variant names. -/
def getThemeVariant (w : World) : String :=
  let raw := cfgGet w.store "hypatia.style" "variant" (Value.str "auto")
  let raw := if raw = Value.undef ∨ raw = Value.null then Value.str "auto" else raw
  normaliseEnum (jsToString raw) ["light", "dark", "auto"] "auto"

/-- style.js `resolveVariant`: an explicit light/dark wins, `auto` follows
the host's active theme kind. -/
def resolveVariant (w : World) (env : Env) : String :=
  let setting := getThemeVariant w
  if setting = "light" ∨ setting = "dark" then setting
  else if env.hostThemeLight then "light" else "dark"

/-- style.js `themeLabelForVariant`. -/
def themeLabelForVariant (variant : String) : String :=
  if variant = "light" then "Hypatia Light" else "Hypatia Dark"

/-- style.js `getSemanticMode`. -/
def getSemanticMode (w : World) : String :=
  let raw := cfgGet w.store "hypatia.style" "semantichighlighting" (Value.str "inherit")
  let raw := if raw = Value.undef ∨ raw = Value.null then Value.str "inherit" else raw
  normaliseEnum (jsToString raw) ["on", "off", "inherit"] "inherit"

/-! ## The three style concerns (style.js, first revision) -/

/-- Persisted-state keys (style.js `STATE`). -/
def KEY_TH_APPLIED : String := "hypatia.style.autotheme.applied"

def KEY_TH_SAVED : String := "hypatia.style.autotheme.savedWorkbenchTheme"

def KEY_TH_TARGET : String := "hypatia.style.autotheme.appliedTarget"

def KEY_TOK_APPLIED : String := "hypatia.style.autotokens.applied"

def KEY_TOK_SAVED : String := "hypatia.style.autotokens.savedTokenColorCustomizations"

def KEY_TOK_TARGET : String := "hypatia.style.autotokens.appliedTarget"

def KEY_TOK_LASTVARIANT : String := "hypatia.style.autotokens.lastVariant"

def KEY_SEM_APPLIED : String := "hypatia.style.semantichighlighting.applied"

def KEY_SEM_SAVED : String :=
  "hypatia.style.semantichighlighting.savedEditorSemanticHighlightingEnabled"

def KEY_SEM_TARGET : String := "hypatia.style.semantichighlighting.appliedTarget"

def KEY_SEM_LASTDESIRED : String := "hypatia.style.semantichighlighting.lastDesired"

/-- style.js `setWorkbenchTheme` (lines 246-251): no-op when the current
theme is falsy or already the desired label, otherwise an equality-checked
write of `workbench.colorTheme` at the given target (scope is always
`undefined` on the paths style.js takes, so `scopeDefined = false`). -/
def setWorkbenchTheme (themeLabel : String) (target : ConfigurationTarget)
    (hostOk : Bool) (w : World) : World × Bool :=
  let current := getMerged w.store "workbench" "colorTheme"
  if falsy current ∨ current = Value.str themeLabel then (w, false)
  else updateSettingE "workbench" "colorTheme" (Value.str themeLabel)
    (some target) false hostOk w

/-- style.js `applyWholeTheme` (lines 260-290). -/
def applyWholeTheme (env : Env) (hostOk : Bool) (w : World) : World × Bool :=
  if ¬ getAutoThemeEnabled w then (w, false)
  else
    match getMerged w.store "workbench" "colorTheme" with
    | Value.str current =>
      if current = "" then (w, false)
      else
        let desired := themeLabelForVariant (resolveVariant w env)
        let currentIsHypatia := current = "Hypatia Dark" ∨ current = "Hypatia Light"
        let storedTarget := parseTarget (gsGetW w KEY_TH_TARGET Value.undef)
        let target := storedTarget.getD
          (pickTargetForKey w.store "workbench" "colorTheme")
        if ¬ currentIsHypatia then
          let w1 := gsSetW w KEY_TH_SAVED (Value.str current)
          let r := setWorkbenchTheme desired target hostOk w1
          if r.2 then (r.1, true)
          else
            let w2 := gsSetW r.1 KEY_TH_APPLIED (Value.bool true)
            let w3 := gsSetW w2 KEY_TH_TARGET (Value.str (serialiseTarget target))
            (w3, false)
        else
          let r := if current ≠ desired then setWorkbenchTheme desired target hostOk w
            else (w, false)
          if r.2 then (r.1, true)
          else if storedTarget = none ∧
              gsGetW r.1 KEY_TH_APPLIED (Value.bool false) = Value.bool true then
            (gsSetW r.1 KEY_TH_TARGET (Value.str (serialiseTarget target)), false)
          else (r.1, false)
    | _ => (w, false)

/-- style.js `restoreWholeTheme` (lines 299-326): write the saved label
back only when the live theme is still one of the two bundled labels and a
non-empty saved string exists; the `finally` clears the three state keys
whether or not the write happened or threw. -/
def restoreWholeTheme (hostOk : Bool) (w : World) : World × Bool :=
  if ¬ (gsGetW w KEY_TH_APPLIED (Value.bool false) = Value.bool true) then (w, false)
  else
    let current := getMerged w.store "workbench" "colorTheme"
    let saved := gsGetW w KEY_TH_SAVED Value.undef
    let target := (parseTarget (gsGetW w KEY_TH_TARGET Value.undef)).getD
      (pickTargetForKey w.store "workbench" "colorTheme")
    let r :=
      match current, saved with
      | Value.str c, Value.str sv =>
        if (c = "Hypatia Dark" ∨ c = "Hypatia Light") ∧ sv ≠ "" then
          setWorkbenchTheme sv target hostOk w
        else (w, false)
      | _, _ => (w, false)
    let w1 := gsSetW r.1 KEY_TH_APPLIED Value.undef
    let w2 := gsSetW w1 KEY_TH_SAVED Value.undef
    let w3 := gsSetW w2 KEY_TH_TARGET Value.undef
    (w3, r.2)

/-- style.js `applyTokenOverlay` (lines 337-370). -/
def applyTokenOverlay (env : Env) (hostOk : Bool) (w : World) : World × Bool :=
  let variant := resolveVariant w env
  let current := asPlainObject (getMerged w.store "editor" "tokenColorCustomizations")
  let alreadyInjected := hasInjectedRules (getField current "textMateRules")
  let autoApplied := gsGetW w KEY_TOK_APPLIED (Value.bool false) = Value.bool true
  let lastVariant := gsGetW w KEY_TOK_LASTVARIANT Value.undef
  if autoApplied ∧ alreadyInjected ∧ lastVariant = Value.str variant then (w, false)
  else
    let baseRules := stripInjectedRules (getField current "textMateRules")
    let base := objAssign current [("textMateRules", Value.arr baseRules)]
    let storedTarget := parseTarget (gsGetW w KEY_TOK_TARGET Value.undef)
    let target := storedTarget.getD
      (pickTargetForKey w.store "editor" "tokenColorCustomizations")
    let w1 := if ¬ autoApplied then gsSetW w KEY_TOK_SAVED base else w
    let injectedRules := buildInjectedRules (Value.arr (env.themeRules variant))
    let next := objAssign base [("textMateRules", Value.arr (baseRules ++ injectedRules))]
    let r := updateSettingE "editor" "tokenColorCustomizations" next
      (some target) false hostOk w1
    if r.2 then (r.1, true)
    else
      let w2 := if ¬ autoApplied then
        gsSetW (gsSetW r.1 KEY_TOK_APPLIED (Value.bool true)) KEY_TOK_TARGET
          (Value.str (serialiseTarget target))
        else r.1
      (gsSetW w2 KEY_TOK_LASTVARIANT (Value.str variant), false)

/-- style.js `restoreTokenOverlay` (lines 379-408): when the automation
owns the live value, write back the saved clean base (`saved ?? undefined`)
and clear all four state keys in the `finally`; when it does not but
marker rules are present anyway, strip them in place (safety net, state
untouched); otherwise no-op. -/
def restoreTokenOverlay (hostOk : Bool) (w : World) : World × Bool :=
  let current := asPlainObject (getMerged w.store "editor" "tokenColorCustomizations")
  let hadInjected := hasInjectedRules (getField current "textMateRules")
  let autoApplied := gsGetW w KEY_TOK_APPLIED (Value.bool false) = Value.bool true
  let saved := gsGetW w KEY_TOK_SAVED Value.undef
  let target := (parseTarget (gsGetW w KEY_TOK_TARGET Value.undef)).getD
    (pickTargetForKey w.store "editor" "tokenColorCustomizations")
  if autoApplied then
    let valueToRestore := if saved = Value.null then Value.undef else saved
    let r := updateSettingE "editor" "tokenColorCustomizations" valueToRestore
      (some target) false hostOk w
    let w1 := gsSetW r.1 KEY_TOK_APPLIED Value.undef
    let w2 := gsSetW w1 KEY_TOK_SAVED Value.undef
    let w3 := gsSetW w2 KEY_TOK_TARGET Value.undef
    let w4 := gsSetW w3 KEY_TOK_LASTVARIANT Value.undef
    (w4, r.2)
  else if hadInjected then
    let valueToRestore := objAssign current
      [("textMateRules", Value.arr (stripInjectedRules (getField current "textMateRules")))]
    updateSettingE "editor" "tokenColorCustomizations" valueToRestore
      (some target) false hostOk w
  else (w, false)

/-- style.js `applySemanticOverride` (lines 419-449). -/
def applySemanticOverride (hostOk : Bool) (w : World) : World × Bool :=
  let mode := getSemanticMode w
  if mode = "inherit" then (w, false)
  else
    let desired := mode = "on"
    let storedTarget := parseTarget (gsGetW w KEY_SEM_TARGET Value.undef)
    let target := storedTarget.getD
      (pickTargetForKey w.store "editor" "semanticHighlighting.enabled")
    let valueInTarget := valueAtTarget
      (inspectKey w.store "editor" "semanticHighlighting.enabled") target
    let autoApplied := gsGetW w KEY_SEM_APPLIED (Value.bool false) = Value.bool true
    if ¬ autoApplied ∧
        getMerged w.store "editor" "semanticHighlighting.enabled" = Value.bool desired then
      (w, false)
    else
      let w1 :=
        if ¬ autoApplied then gsSetW w KEY_SEM_SAVED valueInTarget
        else
          match gsGetW w KEY_SEM_LASTDESIRED Value.undef with
          | Value.bool b =>
            if valueInTarget ≠ Value.bool b then gsSetW w KEY_SEM_SAVED valueInTarget
            else w
          | _ => w
      let r := updateSettingE "editor" "semanticHighlighting.enabled"
        (Value.bool desired) (some target) false hostOk w1
      if r.2 then (r.1, true)
      else
        let w2 := gsSetW r.1 KEY_SEM_LASTDESIRED (Value.bool desired)
        let w3 := if ¬ autoApplied then gsSetW w2 KEY_SEM_APPLIED (Value.bool true) else w2
        let w4 := if storedTarget = none then
          gsSetW w3 KEY_SEM_TARGET (Value.str (serialiseTarget target)) else w3
        (w4, false)

/-- style.js `restoreSemanticOverride` (lines 458-478). -/
def restoreSemanticOverride (hostOk : Bool) (w : World) : World × Bool :=
  if ¬ (gsGetW w KEY_SEM_APPLIED (Value.bool false) = Value.bool true) then (w, false)
  else
    let saved := gsGetW w KEY_SEM_SAVED Value.undef
    let target := (parseTarget (gsGetW w KEY_SEM_TARGET Value.undef)).getD
      (pickTargetForKey w.store "editor" "semanticHighlighting.enabled")
    let valueToRestore := if saved = Value.null then Value.undef else saved
    let r := updateSettingE "editor" "semanticHighlighting.enabled" valueToRestore
      (some target) false hostOk w
    let w1 := gsSetW r.1 KEY_SEM_APPLIED Value.undef
    let w2 := gsSetW w1 KEY_SEM_SAVED Value.undef
    let w3 := gsSetW w2 KEY_SEM_TARGET Value.undef
    let w4 := gsSetW w3 KEY_SEM_LASTDESIRED Value.undef
    (w4, r.2)

/-! ## The reconciliation pass (style.js `reconcile`) -/

/-- The coalesced trigger-reason flags (style.js `reasonsRef`). -/
structure Reasons where
  rInit : Bool
  rEditor : Bool
  rTheme : Bool
  rConfig : Bool
deriving DecidableEq

/-- All reason flags cleared. -/
def noReasons : Reasons := ⟨false, false, false, false⟩

/-- The active editor as `reconcile` sees it: absent, present without a
document, or present with a document of some language id. -/
inductive EditorV where
  | noEditor : EditorV
  | editorNoDoc : EditorV
  | editorWithDoc : String → EditorV
deriving DecidableEq

/-- utils.js `isHypatiaEditor`: `ed?.document?.languageId === "hypatia"`. -/
def isHypatiaEditor : EditorV → Bool
  | EditorV.editorWithDoc lang => lang == "hypatia"
  | _ => false

/-- The reconciler's private state alongside the world: the
`lastWasHypatiaRef` flag and the shared `reasonsRef`. -/
structure RecState where
  world : World
  lastWasHyp : Bool
  reasons : Reasons
deriving DecidableEq

/-- Sequence two fallible async steps: a thrown rejection aborts the rest
of the pass (the exception propagates out of `reconcile`). -/
def chainStep (r : World × Bool) (next : World → World × Bool) : World × Bool :=
  if r.2 then r else next r.1

/-- The leave sequence (restore overlay, then semantic, then whole theme)
shared by the two "left Hypatia" branches of `reconcile`. -/
def leaveSequence (hostOk : Bool) (w : World) : World × Bool :=
  chainStep (chainStep (restoreTokenOverlay hostOk w)
    (fun w1 => restoreSemanticOverride hostOk w1))
    (fun w2 => restoreWholeTheme hostOk w2)

/-- style.js `reconcile` (lines 491-555): bail out while a self-initiated
write is in flight; snapshot and clear the reason flags; on a Hypatia
editor, skip entirely when the previous pass was already Hypatia and only
the editor reason fired, otherwise run semantic, then whole-theme, then
token-overlay resolution; on leaving Hypatia run the leave sequence. -/
def reconcile (env : Env) (hostOk : Bool) (editor : EditorV)
    (visible : List EditorV) (s : RecState) : RecState × Bool :=
  if s.world.switching then (s, false)
  else
    let reasons := s.reasons
    let s1 : RecState := { s with reasons := noReasons }
    let lastWasHyp := s1.lastWasHyp
    match editor with
    | EditorV.editorWithDoc lang =>
      if lang = "hypatia" then
        if lastWasHyp ∧ ¬ (reasons.rInit ∨ reasons.rTheme ∨ reasons.rConfig) then
          (s1, false)
        else
          let s2 := { s1 with lastWasHyp := true }
          let r0 := if getSemanticMode s2.world = "inherit" then
              restoreSemanticOverride hostOk s2.world
            else applySemanticOverride hostOk s2.world
          let r1 := chainStep r0 (fun w =>
            if getAutoThemeEnabled w then applyWholeTheme env hostOk w
            else restoreWholeTheme hostOk w)
          let r2 := chainStep r1 (fun w =>
            if ¬ getAutoTokensEnabled w then restoreTokenOverlay hostOk w
            else applyTokenOverlay env hostOk w)
          ({ s2 with world := r2.1 }, r2.2)
      else
        let s2 := { s1 with lastWasHyp := false }
        if lastWasHyp then
          let r := leaveSequence hostOk s2.world
          ({ s2 with world := r.1 }, r.2)
        else (s2, false)
    | _ =>
      if lastWasHyp ∧ ¬ visible.any isHypatiaEditor then
        let s2 := { s1 with lastWasHyp := false }
        let r := leaveSequence hostOk s2.world
        ({ s2 with world := r.1 }, r.2)
      else (s1, false)

/-! ## The serial queue (utils.js `createSerialQueue`, part_007 1228-1236)

`enqueue(task)` replaces the chain by `chain.then(task).catch(onError)`:
every task starts only after the previous chain promise has settled, a
rejected task is handled by `onError` (which returns normally), and the
resulting settled promise is what the next task chains onto.  The
execution of a fully built chain is therefore the sequential fold below.
A task maps a state to a new state plus an optional rejection; the error
handler maps a rejection and a state to a new state (the real handler
only logs). -/

/-- One enqueued task of the serial queue. -/
def SQTask (σ : Type) : Type := σ → σ × Option String

/-- Run the chain built from tasks numbered from `i` upward: each task
runs to completion from the state its predecessor (or its predecessor's
error handler) left behind, and contributes one trace entry
`(task number, its rejection if any)`. -/
def runChainFrom {σ : Type} (handler : String → σ → σ) :
    Nat → List (SQTask σ) → σ → σ × List (Nat × Option String)
  | _, [], s => (s, [])
  | i, t :: ts, s =>
    let a := t s
    let s1 := match a.2 with
      | some err => handler err a.1
      | none => a.1
    let b := runChainFrom handler (i + 1) ts s1
    (b.1, (i, a.2) :: b.2)

/-- Execution of the serial queue built by `createSerialQueue` after the
given tasks were enqueued. -/
def runChain {σ : Type} (handler : String → σ → σ) (tasks : List (SQTask σ))
    (s : σ) : σ × List (Nat × Option String) :=
  runChainFrom handler 0 tasks s

/-! ## The switching flag against synchronous configuration events

The model below exposes what `updateSettingE` hides: a host `update` call
can synchronously fire `onDidChangeConfiguration` before it resolves (or
rejects).  `NotifyState` carries the pieces of `activateStyle` the handler
can touch: the switching flag, the reason flags, the `pending` coalescing
flag and the number of reconciliation passes scheduled so far. -/

/-- Handler-visible state of `activateStyle` (style.js lines 564-611). -/
structure NotifyState where
  switching : Bool
  reasons : Reasons
  pending : Bool
  scheduled : Nat
deriving DecidableEq

/-- style.js `requestReconcile` (lines 581-593): set the reason flag, and
unless a reconciliation is already pending, mark pending and schedule one
microtask that will enqueue a pass. -/
def requestReconcile (reason : String) (s : NotifyState) : NotifyState :=
  let s1 :=
    if reason = "editor" then { s with reasons := { s.reasons with rEditor := true } }
    else if reason = "theme" then { s with reasons := { s.reasons with rTheme := true } }
    else if reason = "config" then { s with reasons := { s.reasons with rConfig := true } }
    else { s with reasons := { s.reasons with rInit := true } }
  if s1.pending then s1
  else { s1 with pending := true, scheduled := s1.scheduled + 1 }

/-- The `onDidChangeConfiguration` handler (style.js lines 597-609):
return immediately while the switching flag is set, otherwise request a
reconciliation if the event touches a relevant key. -/
def handleConfigChangeEvent (relevant : Bool) (s : NotifyState) : NotifyState :=
  if s.switching then s
  else if relevant then requestReconcile "config" s
  else s

/-- A synchronous side effect of a host `update` call: a configuration
change event (relevant to the style keys or not). -/
inductive HostEvent where
  | configChange : Bool → HostEvent
deriving DecidableEq

/-- Deliver the synchronous events a host update fires, in order, to the
configuration-change handler. -/
def runHostUpdate : List HostEvent → NotifyState → NotifyState
  | [], s => s
  | HostEvent.configChange r :: rest, s =>
    runHostUpdate rest (handleConfigChangeEvent r s)

/-- utils.js `updateSetting` (part_007 lines 1040-1060) with the host
update made visible as a list of synchronous events plus a possible
rejection: when the equality check does not skip the write, the switching
flag is set immediately before `c.update`, the events fire while it is
set, and the `finally` clears it whether the update resolved or threw. -/
def updateSettingEvents (alreadyEqual : Bool) (events : List HostEvent)
    (hostThrows : Bool) (s : NotifyState) : NotifyState × Bool :=
  if alreadyEqual then (s, false)
  else
    let s1 := { s with switching := true }
    let s2 := runHostUpdate events s1
    ({ s2 with switching := false }, hostThrows)

/-! ## Scenario builders used by the claim statements -/

/-- Is the value a JavaScript array?  (`Array.isArray`.) -/
def Value.isArr : Value → Bool
  | Value.arr _ => true
  | _ => false

/-- A fresh world whose configuration lives only at the Global tier (no
workspace open, no package defaults for the touched keys), with empty
persistent state, the switching flag down, and nothing written yet.  The
claim theorems below quantify over the Global tier's contents. -/
def mkGlobalWorld (g : List ((String × String) × Value)) : World :=
  { store := { dfltV := [], globalV := g, workspaceV := [], folderV := [] }
    gstate := []
    switching := false
    writeLog := [] }

/-- The `current` object `applyTokenOverlay` starts from: the merged
`editor.tokenColorCustomizations` coerced to a plain object. -/
def tokCurrentOf (w : World) : Value :=
  asPlainObject (getMerged w.store "editor" "tokenColorCustomizations")

/-- The `baseRules` of `applyTokenOverlay`: the current rules with any
previously injected rules stripped. -/
def tokBaseRulesOf (w : World) : List Value :=
  stripInjectedRules (getField (tokCurrentOf w) "textMateRules")

/-- The clean `base` object `applyTokenOverlay` captures as the saved
value: the current object with `textMateRules` replaced by the clean base
rules (this materialises a `textMateRules` key even when the pre-apply
object had none). -/
def tokBaseOf (w : World) : Value :=
  objAssign (tokCurrentOf w) [("textMateRules", Value.arr (tokBaseRulesOf w))]

/-- The `next` object `applyTokenOverlay` writes: the clean base with the
injected (marker-renamed) theme rules appended. -/
def tokNextOf (env : Env) (w : World) : Value :=
  objAssign (tokBaseOf w)
    [("textMateRules",
      Value.arr (tokBaseRulesOf w ++
        buildInjectedRules (Value.arr (env.themeRules (resolveVariant w env)))))]

/-- A concrete environment: dark host theme, one token rule in the dark
bundled theme file, none in the light one. -/
def envDark : Env :=
  { hostThemeLight := false
    themeRules := fun v =>
      if v = "dark" then
        [Value.obj [("scope", Value.str "keyword"),
                    ("settings", Value.obj [("foreground", Value.str "#c586c0")])]]
      else [] }

/-- A concrete Global configuration tier used by the witnesses: a Hypatia
user with a foreign theme, a user-authored token-customisation object with
no `textMateRules` key, automation switched on, dark variant, forced
semantic highlighting, and an explicit pre-existing semantic value. -/
def gWitness : List ((String × String) × Value) :=
  [(("editor", "tokenColorCustomizations"), Value.obj [("foo", Value.num 1)]),
   (("workbench", "colorTheme"), Value.str "Monokai"),
   (("hypatia.style", "autotheme"), Value.bool true),
   (("hypatia.style", "variant"), Value.str "dark"),
   (("hypatia.style", "semantichighlighting"), Value.str "on"),
   (("editor", "semanticHighlighting.enabled"), Value.bool false)]

/-- A Global tier on which the workbench theme is already the desired
bundled label with autotheme enabled (the zero-write double-apply input). -/
def gThemeApplied : List ((String × String) × Value) :=
  [(("workbench", "colorTheme"), Value.str "Hypatia Dark"),
   (("hypatia.style", "autotheme"), Value.bool true),
   (("hypatia.style", "variant"), Value.str "dark")]

/-! ## Supporting lemmas: association lists, global-only stores -/

theorem find?_filter_of_imp {α : Type} (l : List α) (p q : α → Bool)
    (h : ∀ x, p x = true → q x = true) :
    (l.filter q).find? p = l.find? p := by
  induction l with
  | nil => simp
  | cons a l ih =>
    by_cases hp : p a
    · have hq := h a hp
      simp [hq, List.find?, hp, List.filter, ih]
    · by_cases hq : q a <;> simp [List.filter, hq, List.find?, hp, ih]

theorem tierGet_nil (sec key : String) : tierGet [] sec key = Value.undef := rfl

theorem tierGet_tierSet_self (l : List ((String × String) × Value)) (s k : String)
    (v : Value) : tierGet (tierSet l s k v) s k = v := by
  simp [tierGet, tierSet, List.find?]

theorem tierGet_tierSet_ne (l : List ((String × String) × Value)) (s k s' k' : String)
    (v : Value) (h : ¬ (s' = s ∧ k' = k)) :
    tierGet (tierSet l s k v) s' k' = tierGet l s' k' := by
  have hpq : ∀ x : (String × String) × Value,
      (x.1.1 == s' && x.1.2 == k') = true → (!(x.1.1 == s && x.1.2 == k)) = true := by
    intro x hx
    simp only [Bool.and_eq_true, beq_iff_eq] at hx
    simp only [Bool.not_eq_true', Bool.and_eq_false_iff, beq_eq_false_iff_ne, ne_eq]
    by_contra hc
    push_neg at hc
    exact h ⟨hx.1.symm.trans hc.1, hx.2.symm.trans hc.2⟩
  have hsk : (s == s' && k == k') = false := by
    simp only [Bool.and_eq_false_iff, beq_eq_false_iff_ne, ne_eq]
    by_contra hc
    push_neg at hc
    exact h ⟨hc.1.symm, hc.2.symm⟩
  simp only [tierGet, tierSet, List.find?, hsk, find?_filter_of_imp _ _ _ hpq]

theorem gsGetW_gsSetW_self (w : World) (k : String) (v d : Value) :
    gsGetW (gsSetW w k v) k d = if v = Value.undef then d else v := by
  simp [gsGetW, gsSetW, List.find?]

theorem gsGetW_gsSetW_ne (w : World) (k k' : String) (v d : Value) (h : k' ≠ k) :
    gsGetW (gsSetW w k v) k' d = gsGetW w k' d := by
  have hpq : ∀ x : String × Value, (x.1 == k') = true → (x.1 != k) = true := by
    intro x hx
    simp only [beq_iff_eq] at hx
    simp [bne_iff_ne, hx, h]
  have hkk : (k == k') = false := by
    simp only [beq_eq_false_iff_ne, ne_eq]
    exact fun hc => h hc.symm
  simp only [gsGetW, gsSetW, List.find?, hkk, find?_filter_of_imp _ _ _ hpq]

theorem gsSetW_store (w : World) (k : String) (v : Value) :
    (gsSetW w k v).store = w.store := rfl

theorem gsSetW_writeLog (w : World) (k : String) (v : Value) :
    (gsSetW w k v).writeLog = w.writeLog := rfl

theorem getMerged_store_globalOnly (l : List ((String × String) × Value))
    (sec key : String) :
    getMerged ⟨[], l, [], []⟩ sec key = tierGet l sec key := by
  by_cases h : tierGet l sec key = Value.undef
  · simp [getMerged, tierGet_nil, h]
  · simp [getMerged, tierGet_nil, h]

theorem getMerged_globalOnly (g : List ((String × String) × Value)) (sec key : String) :
    getMerged (mkGlobalWorld g).store sec key = tierGet g sec key :=
  getMerged_store_globalOnly g sec key

theorem valueAtTarget_store_globalOnly (l : List ((String × String) × Value))
    (sec key : String) :
    valueAtTarget (inspectKey (⟨[], l, [], []⟩ : Store) sec key)
      ConfigurationTarget.Global = tierGet l sec key := rfl

theorem pickTarget_store_globalOnly (l : List ((String × String) × Value))
    (sec key : String) :
    pickTargetForKey (⟨[], l, [], []⟩ : Store) sec key = ConfigurationTarget.Global := rfl

/-! ## Supporting lemmas: deep equality -/

theorem isDeepStrictEqual_refl (v : Value) : isDeepStrictEqual v v = true := by
  simp [isDeepStrictEqual]

theorem isDeepStrictEqual_str_str (a b : String) :
    isDeepStrictEqual (Value.str a) (Value.str b) = (a == b) := by
  by_cases h : a = b <;> simp [isDeepStrictEqual, deepEqualCore, h]

theorem isDeepStrictEqual_eq_str (a : Value) (s : String)
    (h : isDeepStrictEqual a (Value.str s) = true) : a = Value.str s := by
  cases a <;> simp_all [isDeepStrictEqual, deepEqualCore]

theorem isDeepStrictEqual_eq_bool (a : Value) (b : Bool)
    (h : isDeepStrictEqual a (Value.bool b) = true) : a = Value.bool b := by
  cases a <;> simp_all [isDeepStrictEqual, deepEqualCore]

theorem isDeepStrictEqual_bool_eq (a : Value) (b : Bool)
    (h : isDeepStrictEqual (Value.bool b) a = true) : a = Value.bool b := by
  cases a <;> simp_all [isDeepStrictEqual, deepEqualCore]

theorem deepEqualFields_mem (fs gs : List (String × Value)) (k : String) (v : Value)
    (hd : deepEqualFields fs gs = true) (hm : (k, v) ∈ fs) :
    ∃ q, gs.find? (fun q => q.1 == k) = some q ∧ deepEqualCore v q.2 = true := by
  induction fs with
  | nil => cases hm
  | cons p fs ih =>
    obtain ⟨k0, v0⟩ := p
    rw [deepEqualFields] at hd
    rw [Bool.and_eq_true] at hd
    rcases List.mem_cons.mp hm with heq | hmem
    · cases heq
      rcases hfind : gs.find? (fun q => q.1 == k) with _ | q
      · rw [hfind] at hd
        simp at hd
      · rw [hfind] at hd
        exact ⟨q, hfind, hd.1⟩
    · exact ih hd.2 hmem

theorem isDeepStrictEqual_arr_length (xs ys : List Value)
    (h : isDeepStrictEqual (Value.arr xs) (Value.arr ys) = true) :
    xs.length = ys.length := by
  rw [isDeepStrictEqual, Bool.or_eq_true] at h
  rcases h with h | h
  · rw [beq_iff_eq] at h
    rw [Value.arr.injEq] at h
    rw [h]
  · rw [deepEqualCore, Bool.and_eq_true] at h
    have h1 := h.1
    rw [beq_iff_eq] at h1
    exact h1

theorem isDeepStrictEqual_obj_getField (fs gs : List (String × Value)) (k : String)
    (h : isDeepStrictEqual (Value.obj fs) (Value.obj gs) = true) :
    isDeepStrictEqual (getField (Value.obj fs) k) (getField (Value.obj gs) k) = true := by
  rw [isDeepStrictEqual, Bool.or_eq_true] at h
  rcases h with h | h
  · rw [beq_iff_eq] at h
    rw [h]
    exact isDeepStrictEqual_refl _
  · rw [deepEqualCore, Bool.and_eq_true, Bool.and_eq_true] at h
    obtain ⟨⟨_, hfields⟩, hsub⟩ := h
    rw [getField, getField]
    rcases hfs : fs.find? (fun p => p.1 == k) with _ | p
    · rcases hgs : gs.find? (fun q => q.1 == k) with _ | q
      · rw [hfs, hgs]
        exact isDeepStrictEqual_refl _
      · have hq := List.find?_some hgs
        have hqmem := List.mem_of_find?_eq_some hgs
        rw [List.all_eq_true] at hsub
        have h2 := hsub q hqmem
        rw [List.any_eq_true] at h2
        obtain ⟨p, hpmem, hpk⟩ := h2
        rw [List.find?_eq_none] at hfs
        have h3 := hfs p hpmem
        rw [beq_iff_eq] at hq hpk h3
        exact absurd (hpk.trans hq) h3
    · have hp := List.find?_some hfs
      have hpmem := List.mem_of_find?_eq_some hfs
      rw [beq_iff_eq] at hp
      obtain ⟨q, hqfind, hqcore⟩ :=
        deepEqualFields_mem fs gs p.1 p.2 hfields (by simpa using hpmem)
      rw [hp] at hqfind
      rw [hfs, hqfind]
      rw [isDeepStrictEqual, Bool.or_eq_true]
      exact Or.inr hqcore

/-! ## Supporting lemmas: marked rules, strip/inject, field assignment -/

theorem isPrefixOf_append_self (l t : List Char) : l.isPrefixOf (l ++ t) = true := by
  induction l with
  | nil => simp [List.isPrefixOf]
  | cons a l ih => simp [List.isPrefixOf, ih]

theorem jsStartsWith_append (p r : String) : jsStartsWith (p ++ r) p = true := by
  rw [jsStartsWith, String.data_append]
  exact isPrefixOf_append_self p.data r.data

theorem setFieldV_obj (fs : List (String × Value)) (k : String) (v : Value) :
    setFieldV (Value.obj fs) k v = Value.obj (setFields fs k v) := rfl

theorem getField_setFields_self (fs : List (String × Value)) (k : String) (v : Value) :
    getField (Value.obj (setFields fs k v)) k = v := by
  rw [getField, setFields]
  by_cases h : fs.any (fun p => p.1 == k)
  · rw [if_pos h]
    rw [List.find?_map]
    have hcomp : ((fun p : String × Value => p.1 == k) ∘
        fun p : String × Value => if p.1 == k then (k, v) else p) =
        (fun p : String × Value => p.1 == k) := by
      funext p
      by_cases hp : (p.1 == k) = true
      · simp [Function.comp, hp]
      · simp [Function.comp, hp]
    rw [hcomp]
    rw [List.any_eq_true] at h
    obtain ⟨p, hpmem, hpk⟩ := h
    rcases hf : fs.find? (fun p => p.1 == k) with _ | p0
    · rw [List.find?_eq_none] at hf
      exact absurd hpk (hf p hpmem)
    · rw [hf]
      have hp0 := List.find?_some hf
      rw [beq_iff_eq] at hp0
      simp [hp0]
  · rw [if_neg h]
    rw [List.any_eq_true] at h
    push_neg at h
    have hnone : fs.find? (fun p => p.1 == k) = none := by
      rw [List.find?_eq_none]
      intro a ha
      exact fun hc => h a ha hc
    rw [List.find?_append, hnone]
    simp [List.find?]

theorem getField_setFields_ne (fs : List (String × Value)) (k k' : String) (v : Value)
    (h : k' ≠ k) :
    getField (Value.obj (setFields fs k v)) k' = getField (Value.obj fs) k' := by
  rw [getField, getField, setFields]
  by_cases hany : fs.any (fun p => p.1 == k)
  · rw [if_pos hany]
    rw [List.find?_map]
    have hcomp : ((fun p : String × Value => p.1 == k') ∘
        fun p : String × Value => if p.1 == k then (k, v) else p) =
        (fun p : String × Value => p.1 == k') := by
      funext p
      by_cases hp : (p.1 == k) = true
      · rw [beq_iff_eq] at hp
        simp [Function.comp, hp]
      · simp [Function.comp, hp]
    rw [hcomp]
    rcases hf : fs.find? (fun p => p.1 == k') with _ | p0
    · rw [hf]
      rfl
    · rw [hf]
      have hp0 := List.find?_some hf
      rw [beq_iff_eq] at hp0
      have hne : (p0.1 == k) = false := by
        rw [beq_eq_false_iff_ne, hp0]
        exact h
      simp [Option.map, hne]
  · rw [if_neg hany]
    rw [List.find?_append]
    have hk0 : (((k, v) : String × Value).1 == k') = false := by
      rw [beq_eq_false_iff_ne]
      exact fun hc => h hc.symm
    have hk' : List.find? (fun p => p.1 == k') [(k, v)] = none := by
      simp [List.find?, hk0]
    rcases hf : fs.find? (fun p => p.1 == k') with _ | p
    · rw [hf]
      simp [Option.or, hk']
    · rw [hf]
      simp [Option.or]

theorem getField_cloneRule_name (namePfx : String) (i : Nat) (r : Value) :
    getField (cloneRule namePfx i r) "name" =
      Value.str (namePfx ++ ":" ++ toString i) := by
  rw [cloneRule]
  split <;> split <;>
    simp [setFieldV, getField_setFields_ne, getField_setFields_self]

theorem cloneRule_marked (namePfx : String) (i : Nat) (r : Value) :
    ruleIsMarked namePfx (cloneRule namePfx i r) = true := by
  rw [ruleIsMarked, getField_cloneRule_name]
  have : namePfx ++ ":" ++ toString i = namePfx ++ (":" ++ toString i) := by
    rw [String.append_assoc]
  rw [this]
  exact jsStartsWith_append namePfx (":" ++ toString i)

theorem buildInjectedRules_all_marked (rs : List Value) (r : Value)
    (h : r ∈ buildInjectedRules (Value.arr rs)) :
    ruleIsMarked INJECTED_RULE_PFX r = true := by
  rw [buildInjectedRules, cloneTextMateRulesWithInjectedNames] at h
  obtain ⟨p, _, rfl⟩ := List.mem_map.mp h
  exact cloneRule_marked INJECTED_RULE_PFX p.1 p.2

theorem stripInjected_append (xs ys : List Value) :
    stripInjectedRules (Value.arr (xs ++ ys)) =
      stripInjectedRules (Value.arr xs) ++ stripInjectedRules (Value.arr ys) := by
  rw [stripInjectedRules, stripInjectedRules, stripInjectedRules,
    stripRulesWithNamePfx, stripRulesWithNamePfx, stripRulesWithNamePfx]
  exact List.filter_append ..

theorem stripInjected_strip (v : Value) :
    stripInjectedRules (Value.arr (stripInjectedRules v)) = stripInjectedRules v := by
  rw [stripInjectedRules, stripInjectedRules]
  cases v <;> simp [stripRulesWithNamePfx, List.filter_filter]

theorem stripInjected_build (rs : List Value) :
    stripInjectedRules (Value.arr (buildInjectedRules (Value.arr rs))) = [] := by
  rw [stripInjectedRules, stripRulesWithNamePfx]
  rw [List.filter_eq_nil_iff]
  intro a ha
  simp [buildInjectedRules_all_marked rs a ha]

theorem hasInjected_append (xs ys : List Value) :
    hasInjectedRules (Value.arr (xs ++ ys)) =
      (hasInjectedRules (Value.arr xs) || hasInjectedRules (Value.arr ys)) := by
  rw [hasInjectedRules, hasInjectedRules, hasInjectedRules,
    hasRulesWithNamePfx, hasRulesWithNamePfx, hasRulesWithNamePfx]
  exact List.any_append

theorem hasInjected_strip (v : Value) :
    hasInjectedRules (Value.arr (stripInjectedRules v)) = false := by
  rw [hasInjectedRules, stripInjectedRules, hasRulesWithNamePfx]
  rw [List.any_eq_false]
  intro a ha
  cases v
  case arr rs =>
    simp only [stripRulesWithNamePfx] at ha
    have hm := (List.mem_filter.mp ha).2
    simp only [Bool.not_eq_true'] at hm
    simp [hm]
  all_goals simp [stripRulesWithNamePfx] at ha

theorem hasInjected_build_cons (r : Value) (rest : List Value) :
    hasInjectedRules (Value.arr (buildInjectedRules (Value.arr (r :: rest)))) = true := by
  rw [hasInjectedRules, hasRulesWithNamePfx, List.any_eq_true]
  refine ⟨cloneRule INJECTED_RULE_PFX 0 r, ?_, cloneRule_marked ..⟩
  rw [buildInjectedRules, cloneTextMateRulesWithInjectedNames]
  exact List.mem_map.mpr ⟨(0, r), by simp [List.enum], rfl⟩

theorem setFields_setFields (fs : List (String × Value)) (k : String) (v v' : Value) :
    setFields (setFields fs k v) k v' = setFields fs k v' := by
  have hany2 : (setFields fs k v).any (fun p => p.1 == k) = true := by
    rw [setFields]
    by_cases h : fs.any (fun p => p.1 == k)
    · rw [if_pos h]
      rw [List.any_eq_true] at h ⊢
      obtain ⟨p, hpmem, hpk⟩ := h
      refine ⟨if p.1 == k then (k, v) else p, List.mem_map.mpr ⟨p, hpmem, rfl⟩, ?_⟩
      rw [hpk]
      simp
    · rw [if_neg h, List.any_append]
      simp
  rw [setFields, if_pos hany2]
  by_cases h : fs.any (fun p => p.1 == k)
  · rw [setFields, if_pos h]
    rw [setFields, if_pos h]
    rw [List.map_map]
    apply List.map_congr_left
    intro p _
    by_cases hp : (p.1 == k) = true
    · simp [Function.comp, hp]
    · simp [Function.comp, hp]
  · rw [setFields, if_neg h]
    rw [setFields, if_neg h]
    rw [List.map_append]
    have h1 : fs.map (fun p => if p.1 == k then ((k, v') : String × Value) else p) = fs := by
      have hid : ∀ p ∈ fs, (if p.1 == k then ((k, v') : String × Value) else p) = p := by
        intro p hp
        rw [List.any_eq_true] at h
        push_neg at h
        rw [if_neg (h p hp)]
      calc fs.map (fun p => if p.1 == k then ((k, v') : String × Value) else p)
          = fs.map id := List.map_congr_left hid
        _ = fs := List.map_id fs
    rw [h1]
    simp

theorem objAssign_single (o : Value) (k : String) (v : Value) :
    objAssign o [(k, v)] = Value.obj (setFields (ownFields o) k v) := rfl

theorem objAssign_objAssign (o : Value) (k : String) (v v' : Value) :
    objAssign (objAssign o [(k, v)]) [(k, v')] = objAssign o [(k, v')] := by
  rw [objAssign_single, objAssign_single, objAssign_single]
  have : ownFields (Value.obj (setFields (ownFields o) k v)) = setFields (ownFields o) k v := rfl
  rw [this, setFields_setFields]

theorem getField_objAssign_single (o : Value) (k : String) (v : Value) :
    getField (objAssign o [(k, v)]) k = v := by
  rw [objAssign_single]
  exact getField_setFields_self ..

theorem setFields_eq_self (fs : List (String × Value)) (k : String) (v : Value)
    (hmem : (k, v) ∈ fs) (huniq : ∀ p ∈ fs, p.1 = k → p = (k, v)) :
    setFields fs k v = fs := by
  rw [setFields]
  have hany : fs.any (fun p => p.1 == k) = true := by
    rw [List.any_eq_true]
    exact ⟨(k, v), hmem, by simp⟩
  rw [if_pos hany]
  have hid : ∀ p ∈ fs, (if p.1 == k then ((k, v) : String × Value) else p) = p := by
    intro p hp
    by_cases hpk : (p.1 == k) = true
    · rw [if_pos hpk]
      rw [beq_iff_eq] at hpk
      exact (huniq p hp hpk).symm
    · rw [if_neg hpk]
  calc fs.map (fun p => if p.1 == k then ((k, v) : String × Value) else p)
      = fs.map id := List.map_congr_left hid
    _ = fs := List.map_id fs

/-! ## Characterising the operations on a clean global-only world -/

theorem applyTokenOverlay_clean (env : Env) (g : List ((String × String) × Value))
    (hne : isDeepStrictEqual (tierGet g "editor" "tokenColorCustomizations")
      (tokNextOf env (mkGlobalWorld g)) = false) :
    applyTokenOverlay env true (mkGlobalWorld g) =
      (⟨⟨[], tierSet g "editor" "tokenColorCustomizations" (tokNextOf env (mkGlobalWorld g)), [], []⟩,
        [(KEY_TOK_LASTVARIANT, Value.str (resolveVariant (mkGlobalWorld g) env)),
         (KEY_TOK_TARGET, Value.str "Global"),
         (KEY_TOK_APPLIED, Value.bool true),
         (KEY_TOK_SAVED, tokBaseOf (mkGlobalWorld g))],
        false,
        [("editor", "tokenColorCustomizations", ConfigurationTarget.Global,
          tokNextOf env (mkGlobalWorld g))]⟩, false) := by
  have h_ap : gsGetW (mkGlobalWorld g) KEY_TOK_APPLIED (Value.bool false) = Value.bool false := rfl
  have h_last : gsGetW (mkGlobalWorld g) KEY_TOK_LASTVARIANT Value.undef = Value.undef := rfl
  have h_tgt : gsGetW (mkGlobalWorld g) KEY_TOK_TARGET Value.undef = Value.undef := rfl
  have h_pick : pickTargetForKey (mkGlobalWorld g).store "editor" "tokenColorCustomizations"
      = ConfigurationTarget.Global := rfl
  have h_vat : ∀ sec key, valueAtTarget (inspectKey (mkGlobalWorld g).store sec key)
      ConfigurationTarget.Global = tierGet g sec key := fun _ _ => rfl
  simp only [tokNextOf, tokBaseOf, tokBaseRulesOf, tokCurrentOf,
    getMerged_globalOnly] at hne ⊢
  simp only [applyTokenOverlay, h_ap, h_last, h_tgt, h_pick, getMerged_globalOnly,
    parseTarget, reduceCtorEq, if_false, Option.getD_some, false_and, and_false,
    gsSetW_store, h_vat]
  simp only [updateSettingE, Option.getD_none, reduceCtorEq, not_false_eq_true,
    if_true, Value.bool.injEq, Bool.false_eq_true, false_and, and_false, if_false,
    gsSetW_store, h_vat, ite_true, ite_false]
  simp only [Option.getD_some, h_pick, reduceCtorEq, false_and, and_true, if_false,
    ite_false, h_vat, hne, Bool.false_eq_true]
  simp [gsSetW, writeAt, mkGlobalWorld, KEY_TOK_APPLIED, KEY_TOK_SAVED,
    KEY_TOK_TARGET, KEY_TOK_LASTVARIANT, serialiseTarget]

theorem tokNextOf_eq_base_of_nil (env : Env) (w : World)
    (hrules : env.themeRules (resolveVariant w env) = []) :
    tokNextOf env w = tokBaseOf w := by
  rw [tokNextOf, hrules]
  have : buildInjectedRules (Value.arr []) = [] := rfl
  rw [this, List.append_nil, tokBaseOf, objAssign_objAssign]

theorem isDeepStrictEqual_next_base_false (env : Env) (w : World) (r : Value)
    (rest : List Value)
    (hrules : env.themeRules (resolveVariant w env) = r :: rest) :
    isDeepStrictEqual (tokNextOf env w) (tokBaseOf w) = false := by
  by_contra hc
  rw [Bool.not_eq_false] at hc
  rw [tokNextOf, hrules, tokBaseOf] at hc
  rw [objAssign_single, objAssign_single] at hc
  have hf := isDeepStrictEqual_obj_getField _ _ "textMateRules" hc
  rw [getField_setFields_self, getField_setFields_self] at hf
  have hlen := isDeepStrictEqual_arr_length _ _ hf
  rw [List.length_append] at hlen
  have : (buildInjectedRules (Value.arr (r :: rest))).length = rest.length + 1 := by
    rw [buildInjectedRules, cloneTextMateRulesWithInjectedNames]
    rw [List.length_map, List.enum_length, List.length_cons]
  omega

theorem restoreTokenOverlay_applied (l : List ((String × String) × Value))
    (lv sv : Value) (log : List (String × String × ConfigurationTarget × Value))
    (hsv : sv ≠ Value.null) :
    restoreTokenOverlay true
      (⟨⟨[], l, [], []⟩,
        [(KEY_TOK_LASTVARIANT, lv), (KEY_TOK_TARGET, Value.str "Global"),
         (KEY_TOK_APPLIED, Value.bool true), (KEY_TOK_SAVED, sv)],
        false, log⟩ : World) =
      (if isDeepStrictEqual (tierGet l "editor" "tokenColorCustomizations") sv = true then
        (⟨⟨[], l, [], []⟩,
          [(KEY_TOK_LASTVARIANT, Value.undef), (KEY_TOK_TARGET, Value.undef),
           (KEY_TOK_SAVED, Value.undef), (KEY_TOK_APPLIED, Value.undef)],
          false, log⟩, false)
      else
        (⟨⟨[], tierSet l "editor" "tokenColorCustomizations" sv, [], []⟩,
          [(KEY_TOK_LASTVARIANT, Value.undef), (KEY_TOK_TARGET, Value.undef),
           (KEY_TOK_SAVED, Value.undef), (KEY_TOK_APPLIED, Value.undef)],
          false, log ++ [("editor", "tokenColorCustomizations",
            ConfigurationTarget.Global, sv)]⟩, false)) := by
  have h_ap : gsGetW (⟨⟨[], l, [], []⟩,
      [(KEY_TOK_LASTVARIANT, lv), (KEY_TOK_TARGET, Value.str "Global"),
       (KEY_TOK_APPLIED, Value.bool true), (KEY_TOK_SAVED, sv)],
      false, log⟩ : World) KEY_TOK_APPLIED (Value.bool false) = Value.bool true := by
    simp [gsGetW, List.find?, KEY_TOK_APPLIED, KEY_TOK_LASTVARIANT, KEY_TOK_TARGET]
  have h_sv : gsGetW (⟨⟨[], l, [], []⟩,
      [(KEY_TOK_LASTVARIANT, lv), (KEY_TOK_TARGET, Value.str "Global"),
       (KEY_TOK_APPLIED, Value.bool true), (KEY_TOK_SAVED, sv)],
      false, log⟩ : World) KEY_TOK_SAVED Value.undef = sv := by
    by_cases h : sv = Value.undef <;>
      simp [gsGetW, List.find?, KEY_TOK_APPLIED, KEY_TOK_LASTVARIANT, KEY_TOK_TARGET,
        KEY_TOK_SAVED, h]
  have h_tg : gsGetW (⟨⟨[], l, [], []⟩,
      [(KEY_TOK_LASTVARIANT, lv), (KEY_TOK_TARGET, Value.str "Global"),
       (KEY_TOK_APPLIED, Value.bool true), (KEY_TOK_SAVED, sv)],
      false, log⟩ : World) KEY_TOK_TARGET Value.undef = Value.str "Global" := by
    simp [gsGetW, List.find?, KEY_TOK_APPLIED, KEY_TOK_LASTVARIANT, KEY_TOK_TARGET]
  rw [restoreTokenOverlay]
  simp only [h_ap, h_sv, h_tg, parseTarget, Value.str.injEq, String.reduceEq,
    reduceCtorEq, if_false, if_true, ite_false, ite_true, Option.getD_some,
    if_pos rfl, if_neg hsv, updateSettingE, valueAtTarget_store_globalOnly,
    pickTarget_store_globalOnly, false_and, and_false, and_true, true_and,
    not_false_eq_true]
  by_cases hde : isDeepStrictEqual (tierGet l "editor" "tokenColorCustomizations") sv = true
  · simp only [hde, if_true, ite_true]
    simp [gsSetW, KEY_TOK_APPLIED, KEY_TOK_LASTVARIANT, KEY_TOK_TARGET, KEY_TOK_SAVED]
  · rw [Bool.not_eq_true] at hde
    simp only [hde, Bool.false_eq_true, if_false, ite_false, if_true, ite_true]
    simp [gsSetW, writeAt, KEY_TOK_APPLIED, KEY_TOK_LASTVARIANT, KEY_TOK_TARGET,
      KEY_TOK_SAVED]

theorem tokBaseOf_ne_null (w : World) : tokBaseOf w ≠ Value.null := by
  rw [tokBaseOf, objAssign_single]
  exact fun h => Value.noConfusion h

theorem restoreTokenOverlay_afterClean (env : Env) (g : List ((String × String) × Value))
    (hne : isDeepStrictEqual (tierGet g "editor" "tokenColorCustomizations")
      (tokNextOf env (mkGlobalWorld g)) = false) :
    (getMerged ((restoreTokenOverlay true
        (applyTokenOverlay env true (mkGlobalWorld g)).1).1).store
        "editor" "tokenColorCustomizations" = tokBaseOf (mkGlobalWorld g)) ∧
    (∀ d, gsGetW ((restoreTokenOverlay true
        (applyTokenOverlay env true (mkGlobalWorld g)).1).1) KEY_TOK_APPLIED d = d) ∧
    (∀ d, gsGetW ((restoreTokenOverlay true
        (applyTokenOverlay env true (mkGlobalWorld g)).1).1) KEY_TOK_SAVED d = d) ∧
    (∀ d, gsGetW ((restoreTokenOverlay true
        (applyTokenOverlay env true (mkGlobalWorld g)).1).1) KEY_TOK_TARGET d = d) ∧
    (∀ d, gsGetW ((restoreTokenOverlay true
        (applyTokenOverlay env true (mkGlobalWorld g)).1).1) KEY_TOK_LASTVARIANT d = d) ∧
    (restoreTokenOverlay true (applyTokenOverlay env true (mkGlobalWorld g)).1).2 = false := by
  rw [applyTokenOverlay_clean env g hne]
  simp only
  rw [restoreTokenOverlay_applied _ _ _ _ (tokBaseOf_ne_null (mkGlobalWorld g))]
  rw [tierGet_tierSet_self]
  by_cases hde : isDeepStrictEqual (tokNextOf env (mkGlobalWorld g))
      (tokBaseOf (mkGlobalWorld g)) = true
  · rcases hrules : env.themeRules (resolveVariant (mkGlobalWorld g) env) with _ | ⟨r, rest⟩
    · have hnb := tokNextOf_eq_base_of_nil env (mkGlobalWorld g) hrules
      simp only [hde, if_true, ite_true]
      refine ⟨?_, ?_, ?_, ?_, ?_, trivial⟩
      · rw [getMerged_store_globalOnly, tierGet_tierSet_self, hnb]
      all_goals
        intro d
        simp [gsGetW, List.find?, KEY_TOK_APPLIED, KEY_TOK_LASTVARIANT,
          KEY_TOK_TARGET, KEY_TOK_SAVED]
    · exact absurd hde (by simp [isDeepStrictEqual_next_base_false env _ r rest hrules])
  · rw [Bool.not_eq_true] at hde
    simp only [hde, Bool.false_eq_true, if_false, ite_false]
    refine ⟨?_, ?_, ?_, ?_, ?_, trivial⟩
    · rw [getMerged_store_globalOnly, tierGet_tierSet_self]
    all_goals
      intro d
      simp [gsGetW, List.find?, KEY_TOK_APPLIED, KEY_TOK_LASTVARIANT,
        KEY_TOK_TARGET, KEY_TOK_SAVED]

theorem mkGlobalWorld_store (g : List ((String × String) × Value)) :
    (mkGlobalWorld g).store = (⟨[], g, [], []⟩ : Store) := rfl

theorem cfgGet_store_globalOnly (l : List ((String × String) × Value))
    (sec key : String) (d : Value) :
    cfgGet (⟨[], l, [], []⟩ : Store) sec key d =
      if tierGet l sec key = Value.undef then d else tierGet l sec key := by
  rw [cfgGet, getMerged_store_globalOnly]

theorem cfgGet_tierSet_ne (g : List ((String × String) × Value))
    (sec key sec' key' : String) (v d : Value) (h : ¬ (sec' = sec ∧ key' = key)) :
    cfgGet (⟨[], tierSet g sec key v, [], []⟩ : Store) sec' key' d =
      cfgGet (⟨[], g, [], []⟩ : Store) sec' key' d := by
  rw [cfgGet_store_globalOnly, cfgGet_store_globalOnly, tierGet_tierSet_ne _ _ _ _ _ _ h]

theorem resolveVariant_tierSet (env : Env) (g : List ((String × String) × Value))
    (sec key : String) (v : Value) (gs : List (String × Value)) (sw : Bool)
    (lg : List (String × String × ConfigurationTarget × Value))
    (h : ¬ ("hypatia.style" = sec ∧ "variant" = key)) :
    resolveVariant (⟨⟨[], tierSet g sec key v, [], []⟩, gs, sw, lg⟩ : World) env =
      resolveVariant (mkGlobalWorld g) env := by
  rw [resolveVariant, resolveVariant, getThemeVariant, getThemeVariant]
  rw [show ((⟨⟨[], tierSet g sec key v, [], []⟩, gs, sw, lg⟩ : World)).store
      = (⟨[], tierSet g sec key v, [], []⟩ : Store) from rfl]
  rw [mkGlobalWorld_store]
  rw [cfgGet_tierSet_ne _ _ _ _ _ _ _ h]

theorem getAutoThemeEnabled_tierSet (g : List ((String × String) × Value))
    (sec key : String) (v : Value) (gs : List (String × Value)) (sw : Bool)
    (lg : List (String × String × ConfigurationTarget × Value))
    (h : ¬ ("hypatia.style" = sec ∧ "autotheme" = key)) :
    getAutoThemeEnabled (⟨⟨[], tierSet g sec key v, [], []⟩, gs, sw, lg⟩ : World) =
      getAutoThemeEnabled (mkGlobalWorld g) := by
  rw [getAutoThemeEnabled, getAutoThemeEnabled]
  rw [show ((⟨⟨[], tierSet g sec key v, [], []⟩, gs, sw, lg⟩ : World)).store
      = (⟨[], tierSet g sec key v, [], []⟩ : Store) from rfl]
  rw [mkGlobalWorld_store]
  rw [cfgGet_tierSet_ne _ _ _ _ _ _ _ h]

theorem getSemanticMode_tierSet (g : List ((String × String) × Value))
    (sec key : String) (v : Value) (gs : List (String × Value)) (sw : Bool)
    (lg : List (String × String × ConfigurationTarget × Value))
    (h : ¬ ("hypatia.style" = sec ∧ "semantichighlighting" = key)) :
    getSemanticMode (⟨⟨[], tierSet g sec key v, [], []⟩, gs, sw, lg⟩ : World) =
      getSemanticMode (mkGlobalWorld g) := by
  rw [getSemanticMode, getSemanticMode]
  rw [show ((⟨⟨[], tierSet g sec key v, [], []⟩, gs, sw, lg⟩ : World)).store
      = (⟨[], tierSet g sec key v, [], []⟩ : Store) from rfl]
  rw [mkGlobalWorld_store]
  rw [cfgGet_tierSet_ne _ _ _ _ _ _ _ h]

theorem applyWholeTheme_clean_foreign (env : Env) (g : List ((String × String) × Value))
    (s : String) (hen : getAutoThemeEnabled (mkGlobalWorld g) = true)
    (hcur : tierGet g "workbench" "colorTheme" = Value.str s)
    (hs0 : s ≠ "") (hsL : s ≠ "Hypatia Light") (hsD : s ≠ "Hypatia Dark") :
    applyWholeTheme env true (mkGlobalWorld g) =
      (⟨⟨[], tierSet g "workbench" "colorTheme"
          (Value.str (themeLabelForVariant (resolveVariant (mkGlobalWorld g) env))), [], []⟩,
        [(KEY_TH_TARGET, Value.str "Global"),
         (KEY_TH_APPLIED, Value.bool true),
         (KEY_TH_SAVED, Value.str s)],
        false,
        [("workbench", "colorTheme", ConfigurationTarget.Global,
          Value.str (themeLabelForVariant (resolveVariant (mkGlobalWorld g) env)))]⟩,
       false) := by
  have h_tgt : gsGetW (mkGlobalWorld g) KEY_TH_TARGET Value.undef = Value.undef := rfl
  have h_pick : pickTargetForKey (mkGlobalWorld g).store "workbench" "colorTheme"
      = ConfigurationTarget.Global := rfl
  have h_vat : ∀ sec key, valueAtTarget (inspectKey (mkGlobalWorld g).store sec key)
      ConfigurationTarget.Global = tierGet g sec key := fun _ _ => rfl
  rw [applyWholeTheme]
  rw [hen]
  simp only [not_true_eq_false, if_false, ite_false]
  rw [getMerged_globalOnly, hcur]
  simp only [if_neg hs0, hsL, hsD, or_self, false_or, or_false, not_false_eq_true,
    if_true, ite_true, h_tgt, parseTarget, reduceCtorEq, if_false, ite_false,
    Option.getD_none, h_pick]
  rw [setWorkbenchTheme]
  rw [show (gsSetW (mkGlobalWorld g) KEY_TH_SAVED (Value.str s)).store
      = (mkGlobalWorld g).store from rfl]
  rw [getMerged_globalOnly, hcur]
  have hdes : s ≠ themeLabelForVariant (resolveVariant (mkGlobalWorld g) env) := by
    rw [themeLabelForVariant]
    by_cases hv : resolveVariant (mkGlobalWorld g) env = "light"
    · rw [if_pos hv]
      exact hsL
    · rw [if_neg hv]
      exact hsD
  have hfalsy : falsy (Value.str s) = false := by
    simp [falsy, hs0]
  simp only [hfalsy, Value.str.injEq, hdes, or_self, Bool.false_eq_true, false_or,
    if_false, ite_false, or_false, if_neg hdes]
  rw [updateSettingE]
  simp only [Option.getD_some, reduceCtorEq, false_and, and_true, and_false, if_false,
    ite_false, not_false_eq_true, and_true]
  rw [show (gsSetW (mkGlobalWorld g) KEY_TH_SAVED (Value.str s)).store
      = (mkGlobalWorld g).store from rfl]
  rw [mkGlobalWorld_store, valueAtTarget_store_globalOnly, hcur]
  rw [isDeepStrictEqual_str_str]
  have hsb : (s == themeLabelForVariant (resolveVariant (mkGlobalWorld g) env)) = false := by
    rw [beq_eq_false_iff_ne]
    exact hdes
  rw [hsb]
  simp [gsSetW, writeAt, mkGlobalWorld, KEY_TH_APPLIED, KEY_TH_SAVED, KEY_TH_TARGET,
    serialiseTarget]

theorem restoreWholeTheme_applied_write (l : List ((String × String) × Value))
    (s c : String) (log : List (String × String × ConfigurationTarget × Value))
    (hcur : tierGet l "workbench" "colorTheme" = Value.str c)
    (hc : c = "Hypatia Dark" ∨ c = "Hypatia Light")
    (hs0 : s ≠ "") (hcs : c ≠ s) :
    restoreWholeTheme true
      (⟨⟨[], l, [], []⟩,
        [(KEY_TH_TARGET, Value.str "Global"), (KEY_TH_APPLIED, Value.bool true),
         (KEY_TH_SAVED, Value.str s)],
        false, log⟩ : World) =
      (⟨⟨[], tierSet l "workbench" "colorTheme" (Value.str s), [], []⟩,
        [(KEY_TH_TARGET, Value.undef), (KEY_TH_SAVED, Value.undef),
         (KEY_TH_APPLIED, Value.undef)],
        false, log ++ [("workbench", "colorTheme", ConfigurationTarget.Global,
          Value.str s)]⟩, false) := by
  have hW : ∀ d, gsGetW (⟨⟨[], l, [], []⟩,
      [(KEY_TH_TARGET, Value.str "Global"), (KEY_TH_APPLIED, Value.bool true),
       (KEY_TH_SAVED, Value.str s)], false, log⟩ : World) KEY_TH_APPLIED d
      = Value.bool true := by
    intro d
    simp [gsGetW, List.find?, KEY_TH_APPLIED, KEY_TH_TARGET]
  have hS : gsGetW (⟨⟨[], l, [], []⟩,
      [(KEY_TH_TARGET, Value.str "Global"), (KEY_TH_APPLIED, Value.bool true),
       (KEY_TH_SAVED, Value.str s)], false, log⟩ : World) KEY_TH_SAVED Value.undef
      = Value.str s := by
    simp [gsGetW, List.find?, KEY_TH_APPLIED, KEY_TH_TARGET, KEY_TH_SAVED]
  have hT : gsGetW (⟨⟨[], l, [], []⟩,
      [(KEY_TH_TARGET, Value.str "Global"), (KEY_TH_APPLIED, Value.bool true),
       (KEY_TH_SAVED, Value.str s)], false, log⟩ : World) KEY_TH_TARGET Value.undef
      = Value.str "Global" := by
    simp [gsGetW, List.find?, KEY_TH_TARGET]
  have hc0 : c ≠ "" := by
    rcases hc with rfl | rfl <;> decide
  rw [restoreWholeTheme]
  simp only [hW, if_pos rfl, not_true_eq_false, if_false, ite_false, hS, hT,
    parseTarget, Value.str.injEq, String.reduceEq, reduceCtorEq, if_true, ite_true,
    Option.getD_some]
  rw [getMerged_store_globalOnly, hcur]
  simp only []
  rw [if_pos ⟨hc, hs0⟩]
  rw [setWorkbenchTheme]
  rw [getMerged_store_globalOnly, hcur]
  have hfalsy : falsy (Value.str c) = false := by simp [falsy, hc0]
  have hcs' : (Value.str c = Value.str s) = False := by
    simp [Value.str.injEq, hcs]
  simp only [hfalsy, hcs', Bool.false_eq_true, false_or, or_false, if_false, ite_false]
  rw [updateSettingE]
  simp only [Option.getD_some, reduceCtorEq, false_and, and_true, and_false, if_false,
    ite_false, not_false_eq_true]
  rw [valueAtTarget_store_globalOnly, hcur, isDeepStrictEqual_str_str]
  have hcb : (c == s) = false := by
    rw [beq_eq_false_iff_ne]
    exact hcs
  rw [hcb]
  simp [gsSetW, writeAt, KEY_TH_APPLIED, KEY_TH_SAVED, KEY_TH_TARGET]

theorem restoreWholeTheme_applied_skip (l : List ((String × String) × Value))
    (sv : Value) (log : List (String × String × ConfigurationTarget × Value))
    (hno : ∀ c, tierGet l "workbench" "colorTheme" = Value.str c →
      c ≠ "Hypatia Dark" ∧ c ≠ "Hypatia Light") :
    restoreWholeTheme true
      (⟨⟨[], l, [], []⟩,
        [(KEY_TH_TARGET, Value.str "Global"), (KEY_TH_APPLIED, Value.bool true),
         (KEY_TH_SAVED, sv)],
        false, log⟩ : World) =
      (⟨⟨[], l, [], []⟩,
        [(KEY_TH_TARGET, Value.undef), (KEY_TH_SAVED, Value.undef),
         (KEY_TH_APPLIED, Value.undef)],
        false, log⟩, false) := by
  have hW : gsGetW (⟨⟨[], l, [], []⟩,
      [(KEY_TH_TARGET, Value.str "Global"), (KEY_TH_APPLIED, Value.bool true),
       (KEY_TH_SAVED, sv)], false, log⟩ : World) KEY_TH_APPLIED (Value.bool false)
      = Value.bool true := by
    simp [gsGetW, List.find?, KEY_TH_APPLIED, KEY_TH_TARGET]
  have hS : gsGetW (⟨⟨[], l, [], []⟩,
      [(KEY_TH_TARGET, Value.str "Global"), (KEY_TH_APPLIED, Value.bool true),
       (KEY_TH_SAVED, sv)], false, log⟩ : World) KEY_TH_SAVED Value.undef = sv := by
    by_cases h : sv = Value.undef <;>
      simp [gsGetW, List.find?, KEY_TH_APPLIED, KEY_TH_TARGET, KEY_TH_SAVED, h]
  have hT : gsGetW (⟨⟨[], l, [], []⟩,
      [(KEY_TH_TARGET, Value.str "Global"), (KEY_TH_APPLIED, Value.bool true),
       (KEY_TH_SAVED, sv)], false, log⟩ : World) KEY_TH_TARGET Value.undef
      = Value.str "Global" := by
    simp [gsGetW, List.find?, KEY_TH_TARGET]
  rw [restoreWholeTheme]
  simp only [hW, if_pos rfl, not_true_eq_false, if_false, ite_false, hS, hT,
    parseTarget, Value.str.injEq, String.reduceEq, reduceCtorEq, if_true, ite_true,
    Option.getD_some]
  rw [getMerged_store_globalOnly]
  rcases hcv : tierGet l "workbench" "colorTheme" with _ | _ | b | n | c | xs | fs
  case str =>
    have hcd := hno c hcv
    cases sv
    case str =>
      next s' =>
        simp only []
        rw [if_neg (show ¬ ((c = "Hypatia Dark" ∨ c = "Hypatia Light") ∧ ¬ s' = "") by
          rintro ⟨hor, _⟩
          rcases hor with h1 | h1
          · exact hcd.1 h1
          · exact hcd.2 h1)]
        simp [gsSetW, KEY_TH_APPLIED, KEY_TH_SAVED, KEY_TH_TARGET]
    all_goals simp [gsSetW, KEY_TH_APPLIED, KEY_TH_SAVED, KEY_TH_TARGET]
  all_goals
    cases sv <;> simp [gsSetW, KEY_TH_APPLIED, KEY_TH_SAVED, KEY_TH_TARGET]

theorem applyWholeTheme_second (env : Env) (g : List ((String × String) × Value))
    (s : String) (hen : getAutoThemeEnabled (mkGlobalWorld g) = true)
    (hcur : tierGet g "workbench" "colorTheme" = Value.str s)
    (hs0 : s ≠ "") (hsL : s ≠ "Hypatia Light") (hsD : s ≠ "Hypatia Dark") :
    applyWholeTheme env true (applyWholeTheme env true (mkGlobalWorld g)).1 =
      ((applyWholeTheme env true (mkGlobalWorld g)).1, false) := by
  rw [applyWholeTheme_clean_foreign env g s hen hcur hs0 hsL hsD]
  simp only
  have hne : ¬ ("hypatia.style" = "workbench" ∧ "autotheme" = "colorTheme") := by
    rintro ⟨h1, _⟩
    exact absurd h1 (by decide)
  have hnv : ¬ ("hypatia.style" = "workbench" ∧ "variant" = "colorTheme") := by
    rintro ⟨h1, _⟩
    exact absurd h1 (by decide)
  rw [applyWholeTheme]
  rw [getAutoThemeEnabled_tierSet _ _ _ _ _ _ _ hne, hen]
  simp only [not_true_eq_false, if_false, ite_false]
  rw [getMerged_store_globalOnly, tierGet_tierSet_self]
  simp only []
  have hlbl : themeLabelForVariant (resolveVariant (⟨⟨[], tierSet g "workbench" "colorTheme"
      (Value.str (themeLabelForVariant (resolveVariant (mkGlobalWorld g) env))), [], []⟩,
      [(KEY_TH_TARGET, Value.str "Global"), (KEY_TH_APPLIED, Value.bool true),
       (KEY_TH_SAVED, Value.str s)], false,
      [("workbench", "colorTheme", ConfigurationTarget.Global,
        Value.str (themeLabelForVariant (resolveVariant (mkGlobalWorld g) env)))]⟩ : World) env)
      = themeLabelForVariant (resolveVariant (mkGlobalWorld g) env) := by
    rw [resolveVariant_tierSet _ _ _ _ _ _ _ _ hnv]
  have hlne : themeLabelForVariant (resolveVariant (mkGlobalWorld g) env) ≠ "" := by
    rw [themeLabelForVariant]
    by_cases hv : resolveVariant (mkGlobalWorld g) env = "light"
    · rw [if_pos hv]
      decide
    · rw [if_neg hv]
      decide
  have hhyp : themeLabelForVariant (resolveVariant (mkGlobalWorld g) env) = "Hypatia Dark" ∨
      themeLabelForVariant (resolveVariant (mkGlobalWorld g) env) = "Hypatia Light" := by
    rw [themeLabelForVariant]
    by_cases hv : resolveVariant (mkGlobalWorld g) env = "light"
    · rw [if_pos hv]
      right
      rfl
    · rw [if_neg hv]
      left
      rfl
  rw [if_neg (by simpa using hlne)]
  rw [hlbl]
  rw [if_neg (by
    rw [not_not]
    exact hhyp)]
  have hTg : gsGetW (⟨⟨[], tierSet g "workbench" "colorTheme"
      (Value.str (themeLabelForVariant (resolveVariant (mkGlobalWorld g) env))), [], []⟩,
      [(KEY_TH_TARGET, Value.str "Global"), (KEY_TH_APPLIED, Value.bool true),
       (KEY_TH_SAVED, Value.str s)], false,
      [("workbench", "colorTheme", ConfigurationTarget.Global,
        Value.str (themeLabelForVariant (resolveVariant (mkGlobalWorld g) env)))]⟩ : World)
      KEY_TH_TARGET Value.undef = Value.str "Global" := by
    simp [gsGetW, List.find?, KEY_TH_TARGET]
  rw [hTg]
  simp only [parseTarget, Value.str.injEq, String.reduceEq, reduceCtorEq, if_true,
    ite_true, if_false, ite_false, Option.getD_some, not_true_eq_false,
    if_neg (show ¬ (themeLabelForVariant (resolveVariant (mkGlobalWorld g) env)
      ≠ themeLabelForVariant (resolveVariant (mkGlobalWorld g) env)) by simp)]
  simp

theorem applySemanticOverride_clean_write (g : List ((String × String) × Value))
    (b : Bool) (hmode : getSemanticMode (mkGlobalWorld g) = cond b "on" "off")
    (hne2 : tierGet g "editor" "semanticHighlighting.enabled" ≠ Value.bool b) :
    applySemanticOverride true (mkGlobalWorld g) =
      (⟨⟨[], tierSet g "editor" "semanticHighlighting.enabled" (Value.bool b), [], []⟩,
        [(KEY_SEM_TARGET, Value.str "Global"),
         (KEY_SEM_APPLIED, Value.bool true),
         (KEY_SEM_LASTDESIRED, Value.bool b),
         (KEY_SEM_SAVED, tierGet g "editor" "semanticHighlighting.enabled")],
        false,
        [("editor", "semanticHighlighting.enabled", ConfigurationTarget.Global,
          Value.bool b)]⟩, false) := by
  have h_tgt : gsGetW (mkGlobalWorld g) KEY_SEM_TARGET Value.undef = Value.undef := rfl
  have h_ap : gsGetW (mkGlobalWorld g) KEY_SEM_APPLIED (Value.bool false)
      = Value.bool false := rfl
  have h_ld : gsGetW (mkGlobalWorld g) KEY_SEM_LASTDESIRED Value.undef = Value.undef := rfl
  have h_pick : pickTargetForKey (mkGlobalWorld g).store "editor"
      "semanticHighlighting.enabled" = ConfigurationTarget.Global := rfl
  have h_vat : ∀ sec key, valueAtTarget (inspectKey (mkGlobalWorld g).store sec key)
      ConfigurationTarget.Global = tierGet g sec key := fun _ _ => rfl
  have hde : isDeepStrictEqual (tierGet g "editor" "semanticHighlighting.enabled")
      (Value.bool b) = false := by
    by_contra hc
    rw [Bool.not_eq_false] at hc
    exact hne2 (isDeepStrictEqual_eq_bool _ _ hc)
  rw [applySemanticOverride, hmode]
  cases b
  all_goals
    simp only [cond_true, cond_false, String.reduceEq, if_false, ite_false, h_tgt,
      parseTarget, reduceCtorEq, Option.getD_none, if_true, ite_true, h_pick, h_ap,
      h_ld, h_vat, getMerged_globalOnly, decide_False, decide_True, Value.bool.injEq,
      Bool.false_eq_true, Bool.true_eq_false, false_and, and_false, and_true,
      true_and, not_true_eq_false, not_false_eq_true]
    rw [if_neg hne2]
    rw [updateSettingE]
    simp only [Option.getD_some, reduceCtorEq, false_and, and_true, and_false,
      if_false, ite_false, not_false_eq_true, gsSetW_store]
    simp only [h_vat, hde, Bool.false_eq_true, if_false, ite_false]
    simp [gsSetW, writeAt, mkGlobalWorld, KEY_SEM_APPLIED, KEY_SEM_SAVED,
      KEY_SEM_TARGET, KEY_SEM_LASTDESIRED, serialiseTarget]

theorem restoreSemanticOverride_applied (l : List ((String × String) × Value))
    (ld sv : Value) (log : List (String × String × ConfigurationTarget × Value))
    (hsv : sv ≠ Value.null) :
    restoreSemanticOverride true
      (⟨⟨[], l, [], []⟩,
        [(KEY_SEM_TARGET, Value.str "Global"), (KEY_SEM_APPLIED, Value.bool true),
         (KEY_SEM_LASTDESIRED, ld), (KEY_SEM_SAVED, sv)],
        false, log⟩ : World) =
      (if isDeepStrictEqual (tierGet l "editor" "semanticHighlighting.enabled") sv = true then
        (⟨⟨[], l, [], []⟩,
          [(KEY_SEM_LASTDESIRED, Value.undef), (KEY_SEM_TARGET, Value.undef),
           (KEY_SEM_SAVED, Value.undef), (KEY_SEM_APPLIED, Value.undef)],
          false, log⟩, false)
      else
        (⟨⟨[], tierSet l "editor" "semanticHighlighting.enabled" sv, [], []⟩,
          [(KEY_SEM_LASTDESIRED, Value.undef), (KEY_SEM_TARGET, Value.undef),
           (KEY_SEM_SAVED, Value.undef), (KEY_SEM_APPLIED, Value.undef)],
          false, log ++ [("editor", "semanticHighlighting.enabled",
            ConfigurationTarget.Global, sv)]⟩, false)) := by
  have h_ap : gsGetW (⟨⟨[], l, [], []⟩,
      [(KEY_SEM_TARGET, Value.str "Global"), (KEY_SEM_APPLIED, Value.bool true),
       (KEY_SEM_LASTDESIRED, ld), (KEY_SEM_SAVED, sv)], false, log⟩ : World)
      KEY_SEM_APPLIED (Value.bool false) = Value.bool true := by
    simp [gsGetW, List.find?, KEY_SEM_APPLIED, KEY_SEM_TARGET, KEY_SEM_LASTDESIRED]
  have h_sv : gsGetW (⟨⟨[], l, [], []⟩,
      [(KEY_SEM_TARGET, Value.str "Global"), (KEY_SEM_APPLIED, Value.bool true),
       (KEY_SEM_LASTDESIRED, ld), (KEY_SEM_SAVED, sv)], false, log⟩ : World)
      KEY_SEM_SAVED Value.undef = sv := by
    by_cases h : sv = Value.undef <;>
      simp [gsGetW, List.find?, KEY_SEM_APPLIED, KEY_SEM_TARGET, KEY_SEM_LASTDESIRED,
        KEY_SEM_SAVED, h]
  have h_tg : gsGetW (⟨⟨[], l, [], []⟩,
      [(KEY_SEM_TARGET, Value.str "Global"), (KEY_SEM_APPLIED, Value.bool true),
       (KEY_SEM_LASTDESIRED, ld), (KEY_SEM_SAVED, sv)], false, log⟩ : World)
      KEY_SEM_TARGET Value.undef = Value.str "Global" := by
    simp [gsGetW, List.find?, KEY_SEM_TARGET]
  rw [restoreSemanticOverride]
  simp only [h_ap, if_pos rfl, not_true_eq_false, if_false, ite_false, h_sv, h_tg,
    parseTarget, Value.str.injEq, String.reduceEq, reduceCtorEq, if_true, ite_true,
    Option.getD_some, if_neg hsv]
  rw [updateSettingE]
  simp only [Option.getD_some, reduceCtorEq, false_and, and_true, and_false, if_false,
    ite_false, not_false_eq_true, valueAtTarget_store_globalOnly]
  by_cases hde : isDeepStrictEqual (tierGet l "editor" "semanticHighlighting.enabled") sv = true
  · simp only [hde, if_true, ite_true]
    simp [gsSetW, KEY_SEM_APPLIED, KEY_SEM_LASTDESIRED, KEY_SEM_TARGET, KEY_SEM_SAVED]
  · rw [Bool.not_eq_true] at hde
    simp only [hde, Bool.false_eq_true, if_false, ite_false]
    simp [gsSetW, writeAt, KEY_SEM_APPLIED, KEY_SEM_LASTDESIRED, KEY_SEM_TARGET,
      KEY_SEM_SAVED]

theorem applySemanticOverride_inherit (w : World)
    (hmode : getSemanticMode w = "inherit") :
    applySemanticOverride true w = (w, false) := by
  rw [applySemanticOverride, hmode]
  simp

theorem applySemanticOverride_alreadyEqual (g : List ((String × String) × Value))
    (b : Bool) (hmode : getSemanticMode (mkGlobalWorld g) = cond b "on" "off")
    (heq : tierGet g "editor" "semanticHighlighting.enabled" = Value.bool b) :
    applySemanticOverride true (mkGlobalWorld g) = (mkGlobalWorld g, false) := by
  have h_ap : gsGetW (mkGlobalWorld g) KEY_SEM_APPLIED (Value.bool false)
      = Value.bool false := rfl
  rw [applySemanticOverride, hmode]
  cases b
  all_goals
    simp [h_ap, getMerged_globalOnly, heq]

theorem restoreSemanticOverride_clean (g : List ((String × String) × Value)) :
    restoreSemanticOverride true (mkGlobalWorld g) = (mkGlobalWorld g, false) := rfl

theorem restoreWholeTheme_clean (g : List ((String × String) × Value)) :
    restoreWholeTheme true (mkGlobalWorld g) = (mkGlobalWorld g, false) := rfl

theorem applySemanticOverride_second (g : List ((String × String) × Value))
    (b : Bool) (hmode : getSemanticMode (mkGlobalWorld g) = cond b "on" "off")
    (hne2 : tierGet g "editor" "semanticHighlighting.enabled" ≠ Value.bool b) :
    ((applySemanticOverride true
        (applySemanticOverride true (mkGlobalWorld g)).1).1).writeLog =
      ((applySemanticOverride true (mkGlobalWorld g)).1).writeLog ∧
    (applySemanticOverride true (applySemanticOverride true (mkGlobalWorld g)).1).2
      = false := by
  rw [applySemanticOverride_clean_write g b hmode hne2]
  simp only
  have hmode2 : getSemanticMode (⟨⟨[], tierSet g "editor" "semanticHighlighting.enabled"
      (Value.bool b), [], []⟩,
      [(KEY_SEM_TARGET, Value.str "Global"), (KEY_SEM_APPLIED, Value.bool true),
       (KEY_SEM_LASTDESIRED, Value.bool b),
       (KEY_SEM_SAVED, tierGet g "editor" "semanticHighlighting.enabled")], false,
      [("editor", "semanticHighlighting.enabled", ConfigurationTarget.Global,
        Value.bool b)]⟩ : World) = cond b "on" "off" := by
    rw [getSemanticMode_tierSet _ _ _ _ _ _ _ (by
      rintro ⟨h1, _⟩
      exact absurd h1 (by decide))]
    exact hmode
  have h_ap : gsGetW (⟨⟨[], tierSet g "editor" "semanticHighlighting.enabled"
      (Value.bool b), [], []⟩,
      [(KEY_SEM_TARGET, Value.str "Global"), (KEY_SEM_APPLIED, Value.bool true),
       (KEY_SEM_LASTDESIRED, Value.bool b),
       (KEY_SEM_SAVED, tierGet g "editor" "semanticHighlighting.enabled")], false,
      [("editor", "semanticHighlighting.enabled", ConfigurationTarget.Global,
        Value.bool b)]⟩ : World) KEY_SEM_APPLIED (Value.bool false) = Value.bool true := by
    simp [gsGetW, List.find?, KEY_SEM_APPLIED, KEY_SEM_TARGET]
  have h_ld : gsGetW (⟨⟨[], tierSet g "editor" "semanticHighlighting.enabled"
      (Value.bool b), [], []⟩,
      [(KEY_SEM_TARGET, Value.str "Global"), (KEY_SEM_APPLIED, Value.bool true),
       (KEY_SEM_LASTDESIRED, Value.bool b),
       (KEY_SEM_SAVED, tierGet g "editor" "semanticHighlighting.enabled")], false,
      [("editor", "semanticHighlighting.enabled", ConfigurationTarget.Global,
        Value.bool b)]⟩ : World) KEY_SEM_LASTDESIRED Value.undef = Value.bool b := by
    simp [gsGetW, List.find?, KEY_SEM_LASTDESIRED, KEY_SEM_TARGET, KEY_SEM_APPLIED]
  have h_tg : gsGetW (⟨⟨[], tierSet g "editor" "semanticHighlighting.enabled"
      (Value.bool b), [], []⟩,
      [(KEY_SEM_TARGET, Value.str "Global"), (KEY_SEM_APPLIED, Value.bool true),
       (KEY_SEM_LASTDESIRED, Value.bool b),
       (KEY_SEM_SAVED, tierGet g "editor" "semanticHighlighting.enabled")], false,
      [("editor", "semanticHighlighting.enabled", ConfigurationTarget.Global,
        Value.bool b)]⟩ : World) KEY_SEM_TARGET Value.undef = Value.str "Global" := by
    simp [gsGetW, List.find?, KEY_SEM_TARGET]
  rw [applySemanticOverride, hmode2]
  cases b
  all_goals
    simp only [cond_true, cond_false, String.reduceEq, if_false, ite_false, h_tg,
      parseTarget, Value.str.injEq, reduceCtorEq, Option.getD_some, if_true, ite_true,
      h_ap, h_ld, valueAtTarget_store_globalOnly, tierGet_tierSet_self,
      decide_False, decide_True, Value.bool.injEq, Bool.false_eq_true,
      Bool.true_eq_false, false_and, and_false, and_true, true_and,
      not_true_eq_false, not_false_eq_true, if_neg, ne_eq]
    rw [updateSettingE]
    simp only [Option.getD_some, reduceCtorEq, false_and, and_true, and_false,
      if_false, ite_false, not_false_eq_true, valueAtTarget_store_globalOnly,
      tierGet_tierSet_self, isDeepStrictEqual_refl, if_true, ite_true]
    simp [gsSetW, gsSetW_writeLog]

theorem applyTokenOverlay_second (env : Env) (g : List ((String × String) × Value))
    (hne : isDeepStrictEqual (tierGet g "editor" "tokenColorCustomizations")
      (tokNextOf env (mkGlobalWorld g)) = false) :
    ((applyTokenOverlay env true (applyTokenOverlay env true (mkGlobalWorld g)).1).1).writeLog =
      ((applyTokenOverlay env true (mkGlobalWorld g)).1).writeLog ∧
    (applyTokenOverlay env true (applyTokenOverlay env true (mkGlobalWorld g)).1).2
      = false := by
  rw [applyTokenOverlay_clean env g hne]
  simp only
  have hvar : resolveVariant (⟨⟨[], tierSet g "editor" "tokenColorCustomizations"
      (tokNextOf env (mkGlobalWorld g)), [], []⟩,
      [(KEY_TOK_LASTVARIANT, Value.str (resolveVariant (mkGlobalWorld g) env)),
       (KEY_TOK_TARGET, Value.str "Global"),
       (KEY_TOK_APPLIED, Value.bool true),
       (KEY_TOK_SAVED, tokBaseOf (mkGlobalWorld g))], false,
      [("editor", "tokenColorCustomizations", ConfigurationTarget.Global,
        tokNextOf env (mkGlobalWorld g))]⟩ : World) env
      = resolveVariant (mkGlobalWorld g) env := by
    rw [resolveVariant_tierSet _ _ _ _ _ _ _ _ (by
      rintro ⟨h1, _⟩
      exact absurd h1 (by decide))]
  have h_ap : gsGetW (⟨⟨[], tierSet g "editor" "tokenColorCustomizations"
      (tokNextOf env (mkGlobalWorld g)), [], []⟩,
      [(KEY_TOK_LASTVARIANT, Value.str (resolveVariant (mkGlobalWorld g) env)),
       (KEY_TOK_TARGET, Value.str "Global"),
       (KEY_TOK_APPLIED, Value.bool true),
       (KEY_TOK_SAVED, tokBaseOf (mkGlobalWorld g))], false,
      [("editor", "tokenColorCustomizations", ConfigurationTarget.Global,
        tokNextOf env (mkGlobalWorld g))]⟩ : World) KEY_TOK_APPLIED (Value.bool false)
      = Value.bool true := by
    simp [gsGetW, List.find?, KEY_TOK_APPLIED, KEY_TOK_LASTVARIANT, KEY_TOK_TARGET]
  have h_lv : gsGetW (⟨⟨[], tierSet g "editor" "tokenColorCustomizations"
      (tokNextOf env (mkGlobalWorld g)), [], []⟩,
      [(KEY_TOK_LASTVARIANT, Value.str (resolveVariant (mkGlobalWorld g) env)),
       (KEY_TOK_TARGET, Value.str "Global"),
       (KEY_TOK_APPLIED, Value.bool true),
       (KEY_TOK_SAVED, tokBaseOf (mkGlobalWorld g))], false,
      [("editor", "tokenColorCustomizations", ConfigurationTarget.Global,
        tokNextOf env (mkGlobalWorld g))]⟩ : World) KEY_TOK_LASTVARIANT Value.undef
      = Value.str (resolveVariant (mkGlobalWorld g) env) := by
    simp [gsGetW, List.find?, KEY_TOK_LASTVARIANT]
  have h_tg : gsGetW (⟨⟨[], tierSet g "editor" "tokenColorCustomizations"
      (tokNextOf env (mkGlobalWorld g)), [], []⟩,
      [(KEY_TOK_LASTVARIANT, Value.str (resolveVariant (mkGlobalWorld g) env)),
       (KEY_TOK_TARGET, Value.str "Global"),
       (KEY_TOK_APPLIED, Value.bool true),
       (KEY_TOK_SAVED, tokBaseOf (mkGlobalWorld g))], false,
      [("editor", "tokenColorCustomizations", ConfigurationTarget.Global,
        tokNextOf env (mkGlobalWorld g))]⟩ : World) KEY_TOK_TARGET Value.undef
      = Value.str "Global" := by
    simp [gsGetW, List.find?, KEY_TOK_TARGET, KEY_TOK_LASTVARIANT]
  have hmg : getMerged (⟨[], tierSet g "editor" "tokenColorCustomizations"
      (tokNextOf env (mkGlobalWorld g)), [], []⟩ : Store) "editor"
      "tokenColorCustomizations" = tokNextOf env (mkGlobalWorld g) := by
    rw [getMerged_store_globalOnly, tierGet_tierSet_self]
  have hap2 : asPlainObject (tokNextOf env (mkGlobalWorld g))
      = tokNextOf env (mkGlobalWorld g) := by
    rw [tokNextOf, objAssign_single]
    rfl
  have hgf : getField (tokNextOf env (mkGlobalWorld g)) "textMateRules"
      = Value.arr (tokBaseRulesOf (mkGlobalWorld g) ++
          buildInjectedRules (Value.arr (env.themeRules
            (resolveVariant (mkGlobalWorld g) env)))) := by
    rw [tokNextOf, objAssign_single]
    exact getField_setFields_self ..
  rw [applyTokenOverlay]
  rw [hvar, hmg, hap2, hgf, h_ap, h_lv]
  rcases hrules : env.themeRules (resolveVariant (mkGlobalWorld g) env) with _ | ⟨r, rest⟩
  · have hbuild : buildInjectedRules (Value.arr
        ([] : List Value)) = [] := rfl
    rw [hbuild, List.append_nil]
    have hhas : hasInjectedRules (Value.arr (tokBaseRulesOf (mkGlobalWorld g))) = false := by
      rw [tokBaseRulesOf]
      exact hasInjected_strip _
    rw [hhas]
    simp only [Bool.false_eq_true, and_false, false_and, and_true, if_pos rfl,
      true_and, if_false, ite_false, if_neg (by simp : ¬ (True ∧ False ∧ True))]
    rw [h_tg]
    simp only [parseTarget, Value.str.injEq, String.reduceEq, reduceCtorEq, if_true,
      ite_true, if_false, ite_false, Option.getD_some, not_true_eq_false]
    have hstrip2 : stripInjectedRules (Value.arr (tokBaseRulesOf (mkGlobalWorld g)))
        = tokBaseRulesOf (mkGlobalWorld g) := by
      rw [tokBaseRulesOf]
      exact stripInjected_strip _
    rw [hstrip2]
    have hbase2 : objAssign (tokNextOf env (mkGlobalWorld g))
        [("textMateRules", Value.arr (tokBaseRulesOf (mkGlobalWorld g)))]
        = tokNextOf env (mkGlobalWorld g) := by
      conv_lhs => rw [tokNextOf, hrules, hbuild, List.append_nil]
      rw [tokNextOf, hrules, hbuild, List.append_nil, tokBaseOf, objAssign_objAssign,
        objAssign_objAssign]
    rw [updateSettingE]
    simp only [Option.getD_some, reduceCtorEq, false_and, and_true, and_false,
      if_false, ite_false, not_false_eq_true, valueAtTarget_store_globalOnly,
      tierGet_tierSet_self, List.append_nil, hbase2, isDeepStrictEqual_refl,
      if_true, ite_true]
    simp [gsSetW, gsSetW_writeLog]
  · have hhas : hasInjectedRules (Value.arr (tokBaseRulesOf (mkGlobalWorld g) ++
        buildInjectedRules (Value.arr (r :: rest)))) = true := by
      rw [hasInjected_append]
      rw [show hasInjectedRules (Value.arr (buildInjectedRules (Value.arr (r :: rest))))
        = true from hasInjected_build_cons r rest]
      simp
    rw [hhas]
    simp

/-! ## Supporting lemmas: queue traces, handler invariance, small facts -/

theorem gsGetW_mkGlobalWorld (g : List ((String × String) × Value)) (k : String)
    (d : Value) : gsGetW (mkGlobalWorld g) k d = d := rfl

theorem themeLabelForVariant_mem (v : String) :
    themeLabelForVariant v = "Hypatia Dark" ∨ themeLabelForVariant v = "Hypatia Light" := by
  rw [themeLabelForVariant]
  by_cases hv : v = "light"
  · rw [if_pos hv]
    right
    rfl
  · rw [if_neg hv]
    left
    rfl

theorem themeLabelForVariant_ne_empty (v : String) : themeLabelForVariant v ≠ "" := by
  rcases themeLabelForVariant_mem v with h | h <;> rw [h] <;> decide

theorem getSemanticMode_cases (w : World) :
    getSemanticMode w = "on" ∨ getSemanticMode w = "off" ∨
      getSemanticMode w = "inherit" := by
  rw [getSemanticMode, normaliseEnum]
  by_cases h : (["on", "off", "inherit"].contains (jsToString
      (if cfgGet w.store "hypatia.style" "semantichighlighting" (Value.str "inherit")
            = Value.undef ∨
          cfgGet w.store "hypatia.style" "semantichighlighting" (Value.str "inherit")
            = Value.null then
        Value.str "inherit"
      else cfgGet w.store "hypatia.style" "semantichighlighting" (Value.str "inherit")))) = true
  · rw [if_pos h]
    have hm := List.mem_of_elem_eq_true h
    simp only [List.mem_cons, List.not_mem_nil, or_false] at hm
    rcases hm with h1 | h1 | h1
    · left
      exact h1
    · right
      left
      exact h1
    · right
      right
      exact h1
  · rw [if_neg h]
    right
    right
    rfl

theorem runChainFrom_map_fst {σ : Type} (handler : String → σ → σ)
    (i : Nat) (ts : List (SQTask σ)) (s : σ) :
    ((runChainFrom handler i ts s).2.map Prod.fst) = List.range' i ts.length := by
  induction ts generalizing i s with
  | nil => rfl
  | cons t ts ih => simp [runChainFrom, List.range', ih]

theorem runChainFrom_append {σ : Type} (handler : String → σ → σ)
    (i : Nat) (ts us : List (SQTask σ)) (s : σ) :
    runChainFrom handler i (ts ++ us) s =
      ((runChainFrom handler (i + ts.length) us (runChainFrom handler i ts s).1).1,
       (runChainFrom handler i ts s).2 ++
         (runChainFrom handler (i + ts.length) us (runChainFrom handler i ts s).1).2) := by
  induction ts generalizing i s with
  | nil => simp [runChainFrom]
  | cons t ts ih =>
    simp only [List.cons_append, runChainFrom, List.length_cons, List.append_eq]
    rw [ih]
    have : i + (ts.length + 1) = i + 1 + ts.length := by omega
    rw [this]

theorem runHostUpdate_switching (events : List HostEvent) (s : NotifyState)
    (h : s.switching = true) : runHostUpdate events s = s := by
  induction events with
  | nil => rfl
  | cons e rest ih =>
    obtain ⟨r⟩ := e
    rw [runHostUpdate, handleConfigChangeEvent, if_pos h]
    exact ih

theorem applyTokenOverlay_clean_fail (env : Env) (g : List ((String × String) × Value))
    (hne : isDeepStrictEqual (tierGet g "editor" "tokenColorCustomizations")
      (tokNextOf env (mkGlobalWorld g)) = false) :
    applyTokenOverlay env false (mkGlobalWorld g) =
      (⟨⟨[], g, [], []⟩,
        [(KEY_TOK_SAVED, tokBaseOf (mkGlobalWorld g))],
        false,
        [("editor", "tokenColorCustomizations", ConfigurationTarget.Global,
          tokNextOf env (mkGlobalWorld g))]⟩, true) := by
  have h_ap : gsGetW (mkGlobalWorld g) KEY_TOK_APPLIED (Value.bool false) = Value.bool false := rfl
  have h_last : gsGetW (mkGlobalWorld g) KEY_TOK_LASTVARIANT Value.undef = Value.undef := rfl
  have h_tgt : gsGetW (mkGlobalWorld g) KEY_TOK_TARGET Value.undef = Value.undef := rfl
  have h_pick : pickTargetForKey (mkGlobalWorld g).store "editor" "tokenColorCustomizations"
      = ConfigurationTarget.Global := rfl
  have h_vat : ∀ sec key, valueAtTarget (inspectKey (mkGlobalWorld g).store sec key)
      ConfigurationTarget.Global = tierGet g sec key := fun _ _ => rfl
  simp only [tokNextOf, tokBaseOf, tokBaseRulesOf, tokCurrentOf,
    getMerged_globalOnly] at hne ⊢
  simp only [applyTokenOverlay, h_ap, h_last, h_tgt, h_pick, getMerged_globalOnly,
    parseTarget, reduceCtorEq, if_false, Option.getD_some, false_and, and_false,
    gsSetW_store, h_vat]
  simp only [updateSettingE, Option.getD_none, reduceCtorEq, not_false_eq_true,
    if_true, Value.bool.injEq, Bool.false_eq_true, false_and, and_false, if_false,
    gsSetW_store, h_vat, ite_true, ite_false]
  simp only [Option.getD_some, h_pick, reduceCtorEq, false_and, and_true, if_false,
    ite_false, h_vat, hne, Bool.false_eq_true]
  simp [gsSetW, mkGlobalWorld, KEY_TOK_SAVED]

theorem applyWholeTheme_clean_foreign_fail (env : Env)
    (g : List ((String × String) × Value)) (s : String)
    (hen : getAutoThemeEnabled (mkGlobalWorld g) = true)
    (hcur : tierGet g "workbench" "colorTheme" = Value.str s)
    (hs0 : s ≠ "") (hsL : s ≠ "Hypatia Light") (hsD : s ≠ "Hypatia Dark") :
    applyWholeTheme env false (mkGlobalWorld g) =
      (⟨⟨[], g, [], []⟩,
        [(KEY_TH_SAVED, Value.str s)],
        false,
        [("workbench", "colorTheme", ConfigurationTarget.Global,
          Value.str (themeLabelForVariant (resolveVariant (mkGlobalWorld g) env)))]⟩,
       true) := by
  have h_tgt : gsGetW (mkGlobalWorld g) KEY_TH_TARGET Value.undef = Value.undef := rfl
  have h_pick : pickTargetForKey (mkGlobalWorld g).store "workbench" "colorTheme"
      = ConfigurationTarget.Global := rfl
  rw [applyWholeTheme]
  rw [hen]
  simp only [not_true_eq_false, if_false, ite_false]
  rw [getMerged_globalOnly, hcur]
  simp only [if_neg hs0, hsL, hsD, or_self, false_or, or_false, not_false_eq_true,
    if_true, ite_true, h_tgt, parseTarget, reduceCtorEq, if_false, ite_false,
    Option.getD_none, h_pick]
  rw [setWorkbenchTheme]
  rw [show (gsSetW (mkGlobalWorld g) KEY_TH_SAVED (Value.str s)).store
      = (mkGlobalWorld g).store from rfl]
  rw [getMerged_globalOnly, hcur]
  have hdes : s ≠ themeLabelForVariant (resolveVariant (mkGlobalWorld g) env) := by
    rw [themeLabelForVariant]
    by_cases hv : resolveVariant (mkGlobalWorld g) env = "light"
    · rw [if_pos hv]
      exact hsL
    · rw [if_neg hv]
      exact hsD
  have hfalsy : falsy (Value.str s) = false := by
    simp [falsy, hs0]
  simp only [hfalsy, Value.str.injEq, hdes, or_self, Bool.false_eq_true, false_or,
    if_false, ite_false, or_false, if_neg hdes]
  rw [updateSettingE]
  simp only [Option.getD_some, reduceCtorEq, false_and, and_true, and_false, if_false,
    ite_false, not_false_eq_true, and_true]
  rw [show (gsSetW (mkGlobalWorld g) KEY_TH_SAVED (Value.str s)).store
      = (mkGlobalWorld g).store from rfl]
  rw [mkGlobalWorld_store, valueAtTarget_store_globalOnly, hcur]
  rw [isDeepStrictEqual_str_str]
  have hsb : (s == themeLabelForVariant (resolveVariant (mkGlobalWorld g) env)) = false := by
    rw [beq_eq_false_iff_ne]
    exact hdes
  rw [hsb]
  simp [gsSetW, mkGlobalWorld, KEY_TH_SAVED]

theorem restoreWholeTheme_afterClean (env : Env) (g : List ((String × String) × Value))
    (s : String) (hen : getAutoThemeEnabled (mkGlobalWorld g) = true)
    (hcur : tierGet g "workbench" "colorTheme" = Value.str s)
    (hs0 : s ≠ "") (hsL : s ≠ "Hypatia Light") (hsD : s ≠ "Hypatia Dark") :
    (getMerged ((restoreWholeTheme true
        (applyWholeTheme env true (mkGlobalWorld g)).1).1).store
        "workbench" "colorTheme" = Value.str s) ∧
    (∀ d, gsGetW ((restoreWholeTheme true
        (applyWholeTheme env true (mkGlobalWorld g)).1).1) KEY_TH_APPLIED d = d) ∧
    (∀ d, gsGetW ((restoreWholeTheme true
        (applyWholeTheme env true (mkGlobalWorld g)).1).1) KEY_TH_SAVED d = d) ∧
    (∀ d, gsGetW ((restoreWholeTheme true
        (applyWholeTheme env true (mkGlobalWorld g)).1).1) KEY_TH_TARGET d = d) ∧
    (restoreWholeTheme true (applyWholeTheme env true (mkGlobalWorld g)).1).2 = false := by
  rw [applyWholeTheme_clean_foreign env g s hen hcur hs0 hsL hsD]
  simp only
  have hcs : themeLabelForVariant (resolveVariant (mkGlobalWorld g) env) ≠ s := by
    rcases themeLabelForVariant_mem (resolveVariant (mkGlobalWorld g) env) with h | h
    · rw [h]
      intro hc
      exact hsD hc.symm
    · rw [h]
      intro hc
      exact hsL hc.symm
  rw [restoreWholeTheme_applied_write _ s
      (themeLabelForVariant (resolveVariant (mkGlobalWorld g) env)) _
      (tierGet_tierSet_self _ _ _ _)
      (themeLabelForVariant_mem _) hs0 hcs]
  refine ⟨?_, ?_, ?_, ?_, by trivial⟩
  · rw [getMerged_store_globalOnly, tierGet_tierSet_self]
  all_goals
    intro d
    simp [gsGetW, List.find?, KEY_TH_APPLIED, KEY_TH_SAVED, KEY_TH_TARGET]

theorem restoreSemanticOverride_afterApply (g : List ((String × String) × Value))
    (hsem : tierGet g "editor" "semanticHighlighting.enabled" ≠ Value.null) :
    (getMerged ((restoreSemanticOverride true
        (applySemanticOverride true (mkGlobalWorld g)).1).1).store
        "editor" "semanticHighlighting.enabled"
      = tierGet g "editor" "semanticHighlighting.enabled") ∧
    (∀ d, gsGetW ((restoreSemanticOverride true
        (applySemanticOverride true (mkGlobalWorld g)).1).1) KEY_SEM_APPLIED d = d) ∧
    (∀ d, gsGetW ((restoreSemanticOverride true
        (applySemanticOverride true (mkGlobalWorld g)).1).1) KEY_SEM_SAVED d = d) ∧
    (∀ d, gsGetW ((restoreSemanticOverride true
        (applySemanticOverride true (mkGlobalWorld g)).1).1) KEY_SEM_TARGET d = d) ∧
    (∀ d, gsGetW ((restoreSemanticOverride true
        (applySemanticOverride true (mkGlobalWorld g)).1).1) KEY_SEM_LASTDESIRED d = d) ∧
    (restoreSemanticOverride true (applySemanticOverride true (mkGlobalWorld g)).1).2
      = false := by
  have hclean : (getMerged ((restoreSemanticOverride true (mkGlobalWorld g)).1).store
        "editor" "semanticHighlighting.enabled"
      = tierGet g "editor" "semanticHighlighting.enabled") ∧
    (∀ d, gsGetW ((restoreSemanticOverride true (mkGlobalWorld g)).1)
        KEY_SEM_APPLIED d = d) ∧
    (∀ d, gsGetW ((restoreSemanticOverride true (mkGlobalWorld g)).1)
        KEY_SEM_SAVED d = d) ∧
    (∀ d, gsGetW ((restoreSemanticOverride true (mkGlobalWorld g)).1)
        KEY_SEM_TARGET d = d) ∧
    (∀ d, gsGetW ((restoreSemanticOverride true (mkGlobalWorld g)).1)
        KEY_SEM_LASTDESIRED d = d) ∧
    (restoreSemanticOverride true (mkGlobalWorld g)).2 = false := by
    rw [restoreSemanticOverride_clean]
    exact ⟨getMerged_globalOnly _ _ _, fun d => rfl, fun d => rfl, fun d => rfl,
      fun d => rfl, rfl⟩
  have hwrite : ∀ b : Bool,
      getSemanticMode (mkGlobalWorld g) = cond b "on" "off" →
      tierGet g "editor" "semanticHighlighting.enabled" ≠ Value.bool b →
      (getMerged ((restoreSemanticOverride true
          (applySemanticOverride true (mkGlobalWorld g)).1).1).store
          "editor" "semanticHighlighting.enabled"
        = tierGet g "editor" "semanticHighlighting.enabled") ∧
      (∀ d, gsGetW ((restoreSemanticOverride true
          (applySemanticOverride true (mkGlobalWorld g)).1).1) KEY_SEM_APPLIED d = d) ∧
      (∀ d, gsGetW ((restoreSemanticOverride true
          (applySemanticOverride true (mkGlobalWorld g)).1).1) KEY_SEM_SAVED d = d) ∧
      (∀ d, gsGetW ((restoreSemanticOverride true
          (applySemanticOverride true (mkGlobalWorld g)).1).1) KEY_SEM_TARGET d = d) ∧
      (∀ d, gsGetW ((restoreSemanticOverride true
          (applySemanticOverride true (mkGlobalWorld g)).1).1) KEY_SEM_LASTDESIRED d = d) ∧
      (restoreSemanticOverride true (applySemanticOverride true (mkGlobalWorld g)).1).2
        = false := by
    intro b hmode hne2
    rw [applySemanticOverride_clean_write g b hmode hne2]
    simp only
    rw [restoreSemanticOverride_applied _ _ _ _ hsem]
    have hde : isDeepStrictEqual
        (tierGet (tierSet g "editor" "semanticHighlighting.enabled" (Value.bool b))
          "editor" "semanticHighlighting.enabled")
        (tierGet g "editor" "semanticHighlighting.enabled") = false := by
      rw [tierGet_tierSet_self]
      by_contra hc
      rw [Bool.not_eq_false] at hc
      exact hne2 (isDeepStrictEqual_bool_eq _ _ hc)
    rw [hde]
    simp only [Bool.false_eq_true, if_false, ite_false]
    refine ⟨?_, ?_, ?_, ?_, ?_, by trivial⟩
    · rw [getMerged_store_globalOnly, tierGet_tierSet_self]
    all_goals
      intro d
      simp [gsGetW, List.find?, KEY_SEM_APPLIED, KEY_SEM_SAVED, KEY_SEM_TARGET,
        KEY_SEM_LASTDESIRED]
  rcases getSemanticMode_cases (mkGlobalWorld g) with hon | hoff | hinh
  · by_cases heq : tierGet g "editor" "semanticHighlighting.enabled" = Value.bool true
    · rw [applySemanticOverride_alreadyEqual g true hon heq]
      exact hclean
    · exact hwrite true hon heq
  · by_cases heq : tierGet g "editor" "semanticHighlighting.enabled" = Value.bool false
    · rw [applySemanticOverride_alreadyEqual g false hoff heq]
      exact hclean
    · exact hwrite false hoff heq
  · rw [applySemanticOverride_inherit _ hinh]
    exact hclean

theorem asPlainObject_objAssign (o : Value) (upd : List (String × Value)) :
    asPlainObject (objAssign o upd) = objAssign o upd := rfl

theorem tokLive_afterClean (env : Env) (g : List ((String × String) × Value))
    (hne : isDeepStrictEqual (tierGet g "editor" "tokenColorCustomizations")
      (tokNextOf env (mkGlobalWorld g)) = false) :
    getMerged ((applyTokenOverlay env true (mkGlobalWorld g)).1).store
      "editor" "tokenColorCustomizations" = tokNextOf env (mkGlobalWorld g) := by
  rw [applyTokenOverlay_clean env g hne]
  simp only
  rw [getMerged_store_globalOnly, tierGet_tierSet_self]

theorem stripInjected_getField_next (env : Env) (w : World) :
    stripInjectedRules (getField (tokNextOf env w) "textMateRules")
      = tokBaseRulesOf w := by
  rw [tokNextOf, getField_objAssign_single, stripInjected_append]
  rw [show stripInjectedRules (Value.arr (tokBaseRulesOf w))
      = stripInjectedRules (Value.arr (stripInjectedRules
        (getField (tokCurrentOf w) "textMateRules"))) from rfl]
  rw [stripInjected_strip, stripInjected_build, List.append_nil]
  rfl

theorem strip_reassign_next (env : Env) (w : World) :
    objAssign (asPlainObject (tokNextOf env w))
      [("textMateRules",
        Value.arr (stripInjectedRules (getField (tokNextOf env w) "textMateRules")))]
      = tokBaseOf w := by
  rw [stripInjected_getField_next, tokNextOf]
  rw [asPlainObject_objAssign, objAssign_objAssign]
  rw [tokBaseOf, objAssign_objAssign]

theorem tokBaseOf_exact (g : List ((String × String) × Value))
    (fs : List (String × Value)) (rs : List Value)
    (hpre : tierGet g "editor" "tokenColorCustomizations" = Value.obj fs)
    (hnd : (fs.map Prod.fst).Nodup)
    (hrules : getField (Value.obj fs) "textMateRules" = Value.arr rs)
    (hunmarked : ∀ r ∈ rs, ruleIsMarked INJECTED_RULE_PFX r = false) :
    tokBaseOf (mkGlobalWorld g) = Value.obj fs := by
  have hcur : tokCurrentOf (mkGlobalWorld g) = Value.obj fs := by
    rw [tokCurrentOf, getMerged_globalOnly, hpre, asPlainObject]
  have hbase : tokBaseRulesOf (mkGlobalWorld g) = rs := by
    rw [tokBaseRulesOf, hcur, hrules, stripInjectedRules, stripRulesWithNamePfx]
    rw [List.filter_eq_self]
    intro a ha
    rw [hunmarked a ha]
    rfl
  obtain ⟨p, hfind, hp2⟩ : ∃ p, fs.find? (fun q => q.1 == "textMateRules") = some p ∧
      p.2 = Value.arr rs := by
    rw [getField] at hrules
    rcases hf : fs.find? (fun q => q.1 == "textMateRules") with _ | p
    · rw [hf] at hrules
      exact absurd hrules (by simp)
    · rw [hf] at hrules
      exact ⟨p, hf, hrules⟩
  have hp1 : p.1 = "textMateRules" := by
    have := List.find?_some hfind
    rwa [beq_iff_eq] at this
  have hpmem : p ∈ fs := List.mem_of_find?_eq_some hfind
  have hpeq : p = ("textMateRules", Value.arr rs) := by
    rcases p with ⟨a, b⟩
    simp only at hp1 hp2
    rw [hp1, hp2]
  have hmem : ("textMateRules", Value.arr rs) ∈ fs := hpeq ▸ hpmem
  have huniq : ∀ q ∈ fs, q.1 = "textMateRules" → q = ("textMateRules", Value.arr rs) := by
    intro q hq hq1
    have := List.inj_on_of_nodup_map hnd hq hmem
    exact this (by rw [hq1])
  rw [tokBaseOf, hcur, hbase, objAssign_single]
  rw [show ownFields (Value.obj fs) = fs from rfl]
  rw [setFields_eq_self fs _ _ hmem huniq]

/-! ## The claims -/

/-- C1: on the serial queue built by `createSerialQueue`, tasks run one at
a time and to completion in exactly enqueue order (the execution trace
numbers the tasks `0, 1, …` in order, one entry per task), and a rejected
task is handled by the queue's error handler so that every task enqueued
later still runs: extending the chain with more tasks runs them after, and
from the state left by, the earlier tasks, whatever rejections occurred. -/
theorem claim_C1_serial_queue_order {σ : Type} (handler : String → σ → σ)
    (tasks extra : List (SQTask σ)) (s : σ) :
    ((runChain handler tasks s).2.map Prod.fst = List.range tasks.length) ∧
    (runChain handler (tasks ++ extra) s =
      ((runChainFrom handler tasks.length extra (runChain handler tasks s).1).1,
       (runChain handler tasks s).2 ++
         (runChainFrom handler tasks.length extra (runChain handler tasks s).1).2)) := by
  constructor
  · rw [runChain, runChainFrom_map_fst, List.range_eq_range']
  · rw [runChain, runChainFrom_append, Nat.zero_add]
    rfl

/-- C2: a self-initiated write through `updateSetting` raises the
switching flag just before the host update, every configuration-change
event fired while the flag is up is dropped by the handler (no reason flag
set, no pass scheduled), and the flag is cleared on every exit path, the
rejecting one included: the observable handler state after the write is
exactly what it was before. -/
theorem claim_C2_switching_flag_no_feedback (events : List HostEvent)
    (hostThrows alreadyEqual : Bool) (s : NotifyState)
    (hsw : s.switching = false) :
    ((updateSettingEvents alreadyEqual events hostThrows s).1 = s) ∧
    (runHostUpdate events { s with switching := true }
      = { s with switching := true }) := by
  have hrun : runHostUpdate events { s with switching := true }
      = { s with switching := true } :=
    runHostUpdate_switching events _ rfl
  refine ⟨?_, hrun⟩
  rw [updateSettingEvents]
  by_cases ha : alreadyEqual = true
  · rw [if_pos ha]
  · rw [if_neg ha]
    simp only
    rw [hrun]
    obtain ⟨sw, rs, pd, sc⟩ := s
    simp only at hsw
    rw [hsw]

/-- C2 witness: a relevant configuration-change event fired during a
throwing host write leaves the handler state exactly as it started. -/
theorem claim_C2_switching_flag_no_feedback_witness :
    ((updateSettingEvents false [HostEvent.configChange true] true
        (⟨false, noReasons, false, 0⟩ : NotifyState)).1
      = (⟨false, noReasons, false, 0⟩ : NotifyState)) ∧
    (runHostUpdate [HostEvent.configChange true]
        { (⟨false, noReasons, false, 0⟩ : NotifyState) with switching := true }
      = { (⟨false, noReasons, false, 0⟩ : NotifyState) with switching := true }) :=
  claim_C2_switching_flag_no_feedback [HostEvent.configChange true] true false
    (⟨false, noReasons, false, 0⟩ : NotifyState) rfl

/-- C8: when the active editor is a Hypatia document, the previous pass
already saw a Hypatia editor, and only the editor-focus reason fired (no
init, theme or config reason), `reconcile` clears the reason snapshot and
returns without running any apply or restore operation: the world — its
configuration store and its write log included — is untouched. -/
theorem claim_C8_editor_only_skip (env : Env) (hostOk : Bool)
    (visible : List EditorV) (s : RecState)
    (hsw : s.world.switching = false) (hlast : s.lastWasHyp = true)
    (hinit : s.reasons.rInit = false) (htheme : s.reasons.rTheme = false)
    (hconfig : s.reasons.rConfig = false) :
    reconcile env hostOk (EditorV.editorWithDoc "hypatia") visible s
      = ({ s with reasons := noReasons }, false) := by
  rw [reconcile]
  simp [hsw, hlast, hinit, htheme, hconfig]

/-- C8 witness: a concrete editor-only pass on a clean world with the
Hypatia flag up leaves everything but the reason snapshot unchanged. -/
theorem claim_C8_editor_only_skip_witness :
    reconcile envDark true (EditorV.editorWithDoc "hypatia") []
      ⟨mkGlobalWorld gWitness, true, ⟨false, true, false, false⟩⟩
      = (⟨mkGlobalWorld gWitness, true, noReasons⟩, false) :=
  claim_C8_editor_only_skip envDark true []
    ⟨mkGlobalWorld gWitness, true, ⟨false, true, false, false⟩⟩
    rfl rfl rfl rfl rfl

/-- C9: `parseTarget` is a left inverse of `serialiseTarget` on all three
configuration targets, `serialiseTarget` sends everything other than
`Workspace` and `WorkspaceFolder` to `"Global"`, and `parseTarget` yields
`none` on every string other than the three target names, so a persisted
target string round-trips to a valid target or reads as absent. -/
theorem claim_C9_target_round_trip :
    (∀ t : ConfigurationTarget,
      parseTarget (Value.str (serialiseTarget t)) = some t) ∧
    (∀ t : ConfigurationTarget, t ≠ ConfigurationTarget.Workspace →
      t ≠ ConfigurationTarget.WorkspaceFolder → serialiseTarget t = "Global") ∧
    (∀ s : String, s ≠ "Global" → s ≠ "Workspace" → s ≠ "WorkspaceFolder" →
      parseTarget (Value.str s) = none) := by
  refine ⟨?_, ?_, ?_⟩
  · intro t
    cases t <;> rfl
  · intro t h1 h2
    cases t
    · rfl
    · exact absurd rfl h1
    · exact absurd rfl h2
  · intro s h1 h2 h3
    rw [parseTarget]
    rw [if_neg (by intro hc; exact h3 (Value.str.inj hc))]
    rw [if_neg (by intro hc; exact h2 (Value.str.inj hc))]
    rw [if_neg (by intro hc; exact h1 (Value.str.inj hc))]

/-- C9 witness: the round trip at `Workspace`, the default arm at
`Global`, and rejection of an unknown persisted string. -/
theorem claim_C9_target_round_trip_witness :
    parseTarget (Value.str (serialiseTarget ConfigurationTarget.Workspace))
      = some ConfigurationTarget.Workspace ∧
    serialiseTarget ConfigurationTarget.Global = "Global" ∧
    parseTarget (Value.str "2") = none :=
  ⟨claim_C9_target_round_trip.1 ConfigurationTarget.Workspace,
   claim_C9_target_round_trip.2.1 ConfigurationTarget.Global
     (by decide) (by decide),
   claim_C9_target_round_trip.2.2 "2" (by decide) (by decide) (by decide)⟩

/-- C10: the rule-list helpers are total over arbitrary configuration
input: every non-array value makes `hasRulesWithNamePfx` answer `false`
and the strip and clone helpers answer the empty list, and a rule whose
`name` field is missing or not a string is never treated as
marker-prefixed, so no malformed `textMateRules` value can make them
misbehave. -/
theorem claim_C10_rule_helpers_total :
    (∀ (v : Value) (p : String), Value.isArr v = false →
      hasRulesWithNamePfx v p = false ∧ stripRulesWithNamePfx v p = [] ∧
      cloneTextMateRulesWithInjectedNames v p = []) ∧
    (∀ (p : String) (r : Value), (∀ s, getField r "name" ≠ Value.str s) →
      ruleIsMarked p r = false) := by
  constructor
  · intro v p hv
    cases v
    case arr => exact absurd hv (by simp [Value.isArr])
    all_goals exact ⟨rfl, rfl, rfl⟩
  · intro p r hr
    rw [ruleIsMarked]
    rcases hname : getField r "name" with _ | _ | b | n | s | xs | fs
    case str => exact absurd hname (hr s)
    all_goals rfl

/-- C10 witness: the helpers at `null` input and the marked test on a
rule with no `name` field. -/
theorem claim_C10_rule_helpers_total_witness :
    (hasRulesWithNamePfx Value.null "hypatia_autotokens" = false ∧
     stripRulesWithNamePfx Value.null "hypatia_autotokens" = [] ∧
     cloneTextMateRulesWithInjectedNames Value.null "hypatia_autotokens" = []) ∧
    ruleIsMarked "hypatia_autotokens" (Value.obj [("name", Value.num 3)])
      = false :=
  ⟨claim_C10_rule_helpers_total.1 Value.null "hypatia_autotokens" rfl,
   claim_C10_rule_helpers_total.2 "hypatia_autotokens"
     (Value.obj [("name", Value.num 3)])
     (fun s h => by simp [getField, List.find?] at h)⟩

/-- C3 counterexample: on a user object with no `textMateRules` key
(`{ foo: 1 }`), apply followed immediately by restore does not return the
live value to its pre-apply value — the written-back base is the
normalised object with a materialised empty `textMateRules` key. -/
theorem claim_C3_counterexample :
    ¬ (getMerged ((restoreTokenOverlay true (applyTokenOverlay envDark true
        (mkGlobalWorld gWitness)).1).1).store "editor" "tokenColorCustomizations"
      = getMerged (mkGlobalWorld gWitness).store "editor" "tokenColorCustomizations") := by
  decide

/-- C4 counterexample: with autotheme enabled and the workbench theme
already at the desired bundled label, two consecutive apply calls perform
zero host writes, not exactly one — the first call is already skipped by
the deep-equality check. -/
theorem claim_C4_counterexample :
    getAutoThemeEnabled (mkGlobalWorld gThemeApplied) = true ∧
    ((applyWholeTheme envDark true (applyWholeTheme envDark true
      (mkGlobalWorld gThemeApplied)).1).1).writeLog.length = 0 := by
  decide

/-- C5 counterexample: after apply switches Monokai to Hypatia Dark, an
external change of the live theme to the *other* bundled label
("Hypatia Light") is clobbered: restore still performs a write and
overwrites the external change with the saved "Monokai", because the
guard only checks membership in the bundled-label set, not that the live
theme is the label this automation itself wrote. -/
theorem claim_C5_counterexample :
    ((restoreWholeTheme true
      (⟨writeAt ((applyWholeTheme envDark true (mkGlobalWorld gWitness)).1).store
          "workbench" "colorTheme" ConfigurationTarget.Global (Value.str "Hypatia Light"),
        ((applyWholeTheme envDark true (mkGlobalWorld gWitness)).1).gstate,
        ((applyWholeTheme envDark true (mkGlobalWorld gWitness)).1).switching,
        ((applyWholeTheme envDark true (mkGlobalWorld gWitness)).1).writeLog⟩ : World)).1).writeLog.length
      = ((applyWholeTheme envDark true (mkGlobalWorld gWitness)).1).writeLog.length + 1 ∧
    getMerged ((restoreWholeTheme true
      (⟨writeAt ((applyWholeTheme envDark true (mkGlobalWorld gWitness)).1).store
          "workbench" "colorTheme" ConfigurationTarget.Global (Value.str "Hypatia Light"),
        ((applyWholeTheme envDark true (mkGlobalWorld gWitness)).1).gstate,
        ((applyWholeTheme envDark true (mkGlobalWorld gWitness)).1).switching,
        ((applyWholeTheme envDark true (mkGlobalWorld gWitness)).1).writeLog⟩ : World)).1).store
      "workbench" "colorTheme" = Value.str "Monokai" := by
  decide

/-- C6 counterexample: after apply of the token overlay on the
pre-apply object `{ foo: 1 }`, stripping every marker-prefixed rule from
the live object does not reconstruct the pre-apply object exactly — the
reconstruction carries the materialised empty `textMateRules` key. -/
theorem claim_C6_counterexample :
    ¬ (objAssign (asPlainObject (getMerged ((applyTokenOverlay envDark true
        (mkGlobalWorld gWitness)).1).store "editor" "tokenColorCustomizations"))
      [("textMateRules", Value.arr (stripInjectedRules (getField (asPlainObject
        (getMerged ((applyTokenOverlay envDark true (mkGlobalWorld gWitness)).1).store
          "editor" "tokenColorCustomizations")) "textMateRules")))]
      = getMerged (mkGlobalWorld gWitness).store "editor" "tokenColorCustomizations") := by
  decide

/-- C7 counterexample: when the host rejects the token-overlay write, the
failure propagates, but the speculative saved-value capture written to the
state store *before* the failed write is not rolled back — the saved key
still holds the captured base object after the throw. -/
theorem claim_C7_counterexample :
    (applyTokenOverlay envDark false (mkGlobalWorld gWitness)).2 = true ∧
    ¬ (gsGetW (applyTokenOverlay envDark false (mkGlobalWorld gWitness)).1
        KEY_TOK_SAVED Value.undef = Value.undef) := by
  decide

theorem restoreWholeTheme_noState (w : World) (h : w.gstate = []) :
    restoreWholeTheme true w = (w, false) := by
  have hap : gsGetW w KEY_TH_APPLIED (Value.bool false) = Value.bool false := by
    simp [gsGetW, h]
  rw [restoreWholeTheme, hap]
  simp

theorem applyWholeTheme_bundled_eq (env : Env) (g : List ((String × String) × Value))
    (c : String) (hen : getAutoThemeEnabled (mkGlobalWorld g) = true)
    (hcur : tierGet g "workbench" "colorTheme" = Value.str c)
    (hc : c = "Hypatia Dark" ∨ c = "Hypatia Light")
    (heq : c = themeLabelForVariant (resolveVariant (mkGlobalWorld g) env)) :
    applyWholeTheme env true (mkGlobalWorld g) = (mkGlobalWorld g, false) := by
  have hc0 : c ≠ "" := by rcases hc with rfl | rfl <;> decide
  have h_tgt : gsGetW (mkGlobalWorld g) KEY_TH_TARGET Value.undef = Value.undef := rfl
  have h_ap : gsGetW (mkGlobalWorld g) KEY_TH_APPLIED (Value.bool false)
      = Value.bool false := rfl
  have h_pick : pickTargetForKey (mkGlobalWorld g).store "workbench" "colorTheme"
      = ConfigurationTarget.Global := rfl
  rw [applyWholeTheme, hen]
  simp only [not_true_eq_false, if_false, ite_false]
  rw [getMerged_globalOnly, hcur]
  simp only [if_neg hc0, h_tgt, parseTarget, reduceCtorEq, if_false, ite_false,
    Option.getD_none, h_pick]
  rw [if_neg (not_not_intro hc)]
  rw [if_neg (not_not_intro heq)]
  simp [h_ap]

theorem applyWholeTheme_bundled (env : Env) (g : List ((String × String) × Value))
    (c : String) (hen : getAutoThemeEnabled (mkGlobalWorld g) = true)
    (hcur : tierGet g "workbench" "colorTheme" = Value.str c)
    (hc : c = "Hypatia Dark" ∨ c = "Hypatia Light")
    (hne : c ≠ themeLabelForVariant (resolveVariant (mkGlobalWorld g) env)) :
    applyWholeTheme env true (mkGlobalWorld g) =
      (⟨⟨[], tierSet g "workbench" "colorTheme"
          (Value.str (themeLabelForVariant (resolveVariant (mkGlobalWorld g) env))), [], []⟩,
        [], false,
        [("workbench", "colorTheme", ConfigurationTarget.Global,
          Value.str (themeLabelForVariant (resolveVariant (mkGlobalWorld g) env)))]⟩,
       false) := by
  have hc0 : c ≠ "" := by rcases hc with rfl | rfl <;> decide
  have h_tgt : gsGetW (mkGlobalWorld g) KEY_TH_TARGET Value.undef = Value.undef := rfl
  have h_pick : pickTargetForKey (mkGlobalWorld g).store "workbench" "colorTheme"
      = ConfigurationTarget.Global := rfl
  rw [applyWholeTheme, hen]
  simp only [not_true_eq_false, if_false, ite_false]
  rw [getMerged_globalOnly, hcur]
  simp only [if_neg hc0, h_tgt, parseTarget, reduceCtorEq, if_false, ite_false,
    Option.getD_none, h_pick]
  rw [if_neg (not_not_intro hc)]
  rw [if_pos hne]
  rw [setWorkbenchTheme]
  rw [getMerged_globalOnly, hcur]
  have hfalsy : falsy (Value.str c) = false := by
    simp [falsy, hc0]
  simp only [hfalsy, Value.str.injEq, hne, or_self, Bool.false_eq_true, false_or,
    if_false, ite_false, or_false, if_neg hne]
  rw [updateSettingE]
  simp only [Option.getD_some, reduceCtorEq, false_and, and_true, and_false, if_false,
    ite_false, not_false_eq_true, and_true]
  rw [mkGlobalWorld_store, valueAtTarget_store_globalOnly, hcur]
  rw [isDeepStrictEqual_str_str]
  have hsb : (c == themeLabelForVariant (resolveVariant (mkGlobalWorld g) env)) = false := by
    rw [beq_eq_false_iff_ne]
    exact hne
  rw [hsb]
  simp [gsSetW, writeAt, gsGetW, mkGlobalWorld, KEY_TH_APPLIED, serialiseTarget]

theorem restoreWholeTheme_afterBundled (env : Env)
    (g : List ((String × String) × Value)) (c : String)
    (hen : getAutoThemeEnabled (mkGlobalWorld g) = true)
    (hcur : tierGet g "workbench" "colorTheme" = Value.str c)
    (hc : c = "Hypatia Dark" ∨ c = "Hypatia Light") :
    ((applyWholeTheme env true (mkGlobalWorld g)).1).gstate = [] ∧
    restoreWholeTheme true (applyWholeTheme env true (mkGlobalWorld g)).1
      = ((applyWholeTheme env true (mkGlobalWorld g)).1, false) ∧
    getMerged ((restoreWholeTheme true (applyWholeTheme env true
        (mkGlobalWorld g)).1).1).store "workbench" "colorTheme"
      = Value.str (themeLabelForVariant (resolveVariant (mkGlobalWorld g) env)) := by
  by_cases hd : c = themeLabelForVariant (resolveVariant (mkGlobalWorld g) env)
  · rw [applyWholeTheme_bundled_eq env g c hen hcur hc hd]
    simp only
    refine ⟨by trivial, restoreWholeTheme_clean g, ?_⟩
    rw [restoreWholeTheme_clean g]
    simp only
    rw [getMerged_globalOnly, hcur, hd]
  · rw [applyWholeTheme_bundled env g c hen hcur hc hd]
    simp only
    have hns := restoreWholeTheme_noState
      (⟨⟨[], tierSet g "workbench" "colorTheme"
          (Value.str (themeLabelForVariant (resolveVariant (mkGlobalWorld g) env))), [], []⟩,
        [], false,
        [("workbench", "colorTheme", ConfigurationTarget.Global,
          Value.str (themeLabelForVariant (resolveVariant (mkGlobalWorld g) env)))]⟩ : World)
      rfl
    refine ⟨by trivial, hns, ?_⟩
    rw [hns]
    simp only
    rw [getMerged_store_globalOnly, tierGet_tierSet_self]

theorem restoreSemanticOverride_applied_nullsv (l : List ((String × String) × Value))
    (ld : Value) (log : List (String × String × ConfigurationTarget × Value)) :
    restoreSemanticOverride true
      (⟨⟨[], l, [], []⟩,
        [(KEY_SEM_TARGET, Value.str "Global"), (KEY_SEM_APPLIED, Value.bool true),
         (KEY_SEM_LASTDESIRED, ld), (KEY_SEM_SAVED, Value.null)],
        false, log⟩ : World) =
      (if isDeepStrictEqual (tierGet l "editor" "semanticHighlighting.enabled")
          Value.undef = true then
        (⟨⟨[], l, [], []⟩,
          [(KEY_SEM_LASTDESIRED, Value.undef), (KEY_SEM_TARGET, Value.undef),
           (KEY_SEM_SAVED, Value.undef), (KEY_SEM_APPLIED, Value.undef)],
          false, log⟩, false)
      else
        (⟨⟨[], tierSet l "editor" "semanticHighlighting.enabled" Value.undef, [], []⟩,
          [(KEY_SEM_LASTDESIRED, Value.undef), (KEY_SEM_TARGET, Value.undef),
           (KEY_SEM_SAVED, Value.undef), (KEY_SEM_APPLIED, Value.undef)],
          false, log ++ [("editor", "semanticHighlighting.enabled",
            ConfigurationTarget.Global, Value.undef)]⟩, false)) := by
  have h_ap : gsGetW (⟨⟨[], l, [], []⟩,
      [(KEY_SEM_TARGET, Value.str "Global"), (KEY_SEM_APPLIED, Value.bool true),
       (KEY_SEM_LASTDESIRED, ld), (KEY_SEM_SAVED, Value.null)], false, log⟩ : World)
      KEY_SEM_APPLIED (Value.bool false) = Value.bool true := by
    simp [gsGetW, List.find?, KEY_SEM_APPLIED, KEY_SEM_TARGET, KEY_SEM_LASTDESIRED]
  have h_sv : gsGetW (⟨⟨[], l, [], []⟩,
      [(KEY_SEM_TARGET, Value.str "Global"), (KEY_SEM_APPLIED, Value.bool true),
       (KEY_SEM_LASTDESIRED, ld), (KEY_SEM_SAVED, Value.null)], false, log⟩ : World)
      KEY_SEM_SAVED Value.undef = Value.null := by
    simp [gsGetW, List.find?, KEY_SEM_APPLIED, KEY_SEM_TARGET, KEY_SEM_LASTDESIRED,
      KEY_SEM_SAVED]
  have h_tg : gsGetW (⟨⟨[], l, [], []⟩,
      [(KEY_SEM_TARGET, Value.str "Global"), (KEY_SEM_APPLIED, Value.bool true),
       (KEY_SEM_LASTDESIRED, ld), (KEY_SEM_SAVED, Value.null)], false, log⟩ : World)
      KEY_SEM_TARGET Value.undef = Value.str "Global" := by
    simp [gsGetW, List.find?, KEY_SEM_TARGET]
  rw [restoreSemanticOverride]
  simp only [h_ap, if_pos rfl, not_true_eq_false, if_false, ite_false, h_sv, h_tg,
    parseTarget, Value.str.injEq, String.reduceEq, reduceCtorEq, if_true, ite_true,
    Option.getD_some]
  rw [updateSettingE]
  simp only [Option.getD_some, reduceCtorEq, false_and, and_true, and_false, if_false,
    ite_false, not_false_eq_true, valueAtTarget_store_globalOnly]
  by_cases hde : isDeepStrictEqual (tierGet l "editor" "semanticHighlighting.enabled")
      Value.undef = true
  · simp only [hde, if_true, ite_true]
    simp [gsSetW, KEY_SEM_APPLIED, KEY_SEM_LASTDESIRED, KEY_SEM_TARGET, KEY_SEM_SAVED]
  · rw [Bool.not_eq_true] at hde
    simp only [hde, Bool.false_eq_true, if_false, ite_false]
    simp [gsSetW, writeAt, KEY_SEM_APPLIED, KEY_SEM_LASTDESIRED, KEY_SEM_TARGET,
      KEY_SEM_SAVED]

theorem restoreSemanticOverride_afterApply_null (g : List ((String × String) × Value))
    (b : Bool)
    (hnull : tierGet g "editor" "semanticHighlighting.enabled" = Value.null)
    (hmode : getSemanticMode (mkGlobalWorld g) = cond b "on" "off") :
    getMerged ((restoreSemanticOverride true (applySemanticOverride true
        (mkGlobalWorld g)).1).1).store "editor" "semanticHighlighting.enabled"
      = Value.undef := by
  have hne2 : tierGet g "editor" "semanticHighlighting.enabled" ≠ Value.bool b := by
    rw [hnull]
    exact fun h => Value.noConfusion h
  rw [applySemanticOverride_clean_write g b hmode hne2]
  simp only
  rw [hnull]
  rw [restoreSemanticOverride_applied_nullsv]
  rw [tierGet_tierSet_self]
  have hde : isDeepStrictEqual (Value.bool b) Value.undef = false := by
    cases b <;> rfl
  rw [hde]
  simp only [Bool.false_eq_true, if_false, ite_false]
  rw [getMerged_store_globalOnly, tierGet_tierSet_self]

/-- C3 (amended): apply followed immediately by restore clears every
persisted state key of every concern, and restores the live value as
follows.  Token overlay: the live value returns to the *normalised*
pre-apply base — the pre-apply object with its `textMateRules` key
replaced (and materialised if absent) by the unmarked pre-apply rules —
rather than to the exact pre-apply value.  Whole theme: the live theme
returns exactly to its pre-apply value provided that value was a
non-empty label that is not itself one of the two bundled labels; when
the pre-apply theme *is* a bundled label, apply takes the adjust branch,
which writes the desired label without capturing anything and without
setting the applied flag, so restore is a no-op and the live theme ends
at the desired label, not the pre-apply one.  Semantic override: the live
value returns exactly provided it was not `null`; a `null` pre-value is
captured as `null` and written back as `undefined` (`saved ?? undefined`),
leaving the key absent. -/
theorem claim_C3_amended_round_trip (env : Env)
    (g : List ((String × String) × Value)) (s : String)
    (htok : isDeepStrictEqual (tierGet g "editor" "tokenColorCustomizations")
      (tokNextOf env (mkGlobalWorld g)) = false)
    (hen : getAutoThemeEnabled (mkGlobalWorld g) = true)
    (hcur : tierGet g "workbench" "colorTheme" = Value.str s)
    (hs0 : s ≠ "") (hsL : s ≠ "Hypatia Light") (hsD : s ≠ "Hypatia Dark")
    (hsem : tierGet g "editor" "semanticHighlighting.enabled" ≠ Value.null) :
    (((getMerged ((restoreTokenOverlay true
        (applyTokenOverlay env true (mkGlobalWorld g)).1).1).store
        "editor" "tokenColorCustomizations" = tokBaseOf (mkGlobalWorld g)) ∧
     (∀ d, gsGetW ((restoreTokenOverlay true
        (applyTokenOverlay env true (mkGlobalWorld g)).1).1) KEY_TOK_APPLIED d = d) ∧
     (∀ d, gsGetW ((restoreTokenOverlay true
        (applyTokenOverlay env true (mkGlobalWorld g)).1).1) KEY_TOK_SAVED d = d) ∧
     (∀ d, gsGetW ((restoreTokenOverlay true
        (applyTokenOverlay env true (mkGlobalWorld g)).1).1) KEY_TOK_TARGET d = d) ∧
     (∀ d, gsGetW ((restoreTokenOverlay true
        (applyTokenOverlay env true (mkGlobalWorld g)).1).1) KEY_TOK_LASTVARIANT d = d) ∧
     (restoreTokenOverlay true (applyTokenOverlay env true (mkGlobalWorld g)).1).2
       = false) ∧
    ((getMerged ((restoreWholeTheme true
        (applyWholeTheme env true (mkGlobalWorld g)).1).1).store
        "workbench" "colorTheme" = Value.str s) ∧
     (∀ d, gsGetW ((restoreWholeTheme true
        (applyWholeTheme env true (mkGlobalWorld g)).1).1) KEY_TH_APPLIED d = d) ∧
     (∀ d, gsGetW ((restoreWholeTheme true
        (applyWholeTheme env true (mkGlobalWorld g)).1).1) KEY_TH_SAVED d = d) ∧
     (∀ d, gsGetW ((restoreWholeTheme true
        (applyWholeTheme env true (mkGlobalWorld g)).1).1) KEY_TH_TARGET d = d) ∧
     (restoreWholeTheme true (applyWholeTheme env true (mkGlobalWorld g)).1).2
       = false) ∧
    ((getMerged ((restoreSemanticOverride true
        (applySemanticOverride true (mkGlobalWorld g)).1).1).store
        "editor" "semanticHighlighting.enabled"
      = tierGet g "editor" "semanticHighlighting.enabled") ∧
     (∀ d, gsGetW ((restoreSemanticOverride true
        (applySemanticOverride true (mkGlobalWorld g)).1).1) KEY_SEM_APPLIED d = d) ∧
     (∀ d, gsGetW ((restoreSemanticOverride true
        (applySemanticOverride true (mkGlobalWorld g)).1).1) KEY_SEM_SAVED d = d) ∧
     (∀ d, gsGetW ((restoreSemanticOverride true
        (applySemanticOverride true (mkGlobalWorld g)).1).1) KEY_SEM_TARGET d = d) ∧
     (∀ d, gsGetW ((restoreSemanticOverride true
        (applySemanticOverride true (mkGlobalWorld g)).1).1) KEY_SEM_LASTDESIRED d = d) ∧
     (restoreSemanticOverride true (applySemanticOverride true (mkGlobalWorld g)).1).2
       = false)) ∧
    (∀ (l : List ((String × String) × Value)) (c : String),
      getAutoThemeEnabled (mkGlobalWorld l) = true →
      tierGet l "workbench" "colorTheme" = Value.str c →
      (c = "Hypatia Dark" ∨ c = "Hypatia Light") →
      ((applyWholeTheme env true (mkGlobalWorld l)).1).gstate = [] ∧
      restoreWholeTheme true (applyWholeTheme env true (mkGlobalWorld l)).1
        = ((applyWholeTheme env true (mkGlobalWorld l)).1, false) ∧
      getMerged ((restoreWholeTheme true (applyWholeTheme env true
          (mkGlobalWorld l)).1).1).store "workbench" "colorTheme"
        = Value.str (themeLabelForVariant (resolveVariant (mkGlobalWorld l) env))) ∧
    (∀ (l : List ((String × String) × Value)) (b : Bool),
      tierGet l "editor" "semanticHighlighting.enabled" = Value.null →
      getSemanticMode (mkGlobalWorld l) = cond b "on" "off" →
      getMerged ((restoreSemanticOverride true (applySemanticOverride true
          (mkGlobalWorld l)).1).1).store "editor" "semanticHighlighting.enabled"
        = Value.undef) := by
  refine ⟨⟨restoreTokenOverlay_afterClean env g htok,
    restoreWholeTheme_afterClean env g s hen hcur hs0 hsL hsD,
    restoreSemanticOverride_afterApply g hsem⟩, ?_, ?_⟩
  · intro l c hen2 hcur2 hc2
    exact restoreWholeTheme_afterBundled env l c hen2 hcur2 hc2
  · intro l b hnull hmode
    exact restoreSemanticOverride_afterApply_null l b hnull hmode

/-- C3 witness: the amended round trip at the concrete dark-variant
environment.  On the Monokai tier the token live value lands on the
normalised base, theme and semantic values land back exactly, and the
persisted keys read as absent; on a tier whose pre-apply theme is the
other bundled label ("Hypatia Light") the round trip ends at the desired
"Hypatia Dark" instead of the pre-apply value; and on a tier whose
semantic pre-value is `null` the round trip ends with the key absent. -/
theorem claim_C3_amended_round_trip_witness :
    (getMerged ((restoreTokenOverlay true
        (applyTokenOverlay envDark true (mkGlobalWorld gWitness)).1).1).store
        "editor" "tokenColorCustomizations" = tokBaseOf (mkGlobalWorld gWitness)) ∧
    (gsGetW ((restoreTokenOverlay true
        (applyTokenOverlay envDark true (mkGlobalWorld gWitness)).1).1)
        KEY_TOK_APPLIED (Value.num 7) = Value.num 7) ∧
    (getMerged ((restoreWholeTheme true
        (applyWholeTheme envDark true (mkGlobalWorld gWitness)).1).1).store
        "workbench" "colorTheme" = Value.str "Monokai") ∧
    (getMerged ((restoreSemanticOverride true
        (applySemanticOverride true (mkGlobalWorld gWitness)).1).1).store
        "editor" "semanticHighlighting.enabled" = Value.bool false) ∧
    (getMerged ((restoreWholeTheme true (applyWholeTheme envDark true
        (mkGlobalWorld [(("workbench", "colorTheme"), Value.str "Hypatia Light"),
          (("hypatia.style", "autotheme"), Value.bool true),
          (("hypatia.style", "variant"), Value.str "dark")])).1).1).store
        "workbench" "colorTheme" = Value.str "Hypatia Dark") ∧
    (getMerged ((restoreSemanticOverride true (applySemanticOverride true
        (mkGlobalWorld [(("editor", "semanticHighlighting.enabled"), Value.null),
          (("hypatia.style", "semantichighlighting"), Value.str "on")])).1).1).store
        "editor" "semanticHighlighting.enabled" = Value.undef) :=
  ⟨(claim_C3_amended_round_trip envDark gWitness "Monokai" (by decide) (by decide)
      (by decide) (by decide) (by decide) (by decide) (by decide)).1.1.1,
   (claim_C3_amended_round_trip envDark gWitness "Monokai" (by decide) (by decide)
      (by decide) (by decide) (by decide) (by decide) (by decide)).1.1.2.1
      (Value.num 7),
   (claim_C3_amended_round_trip envDark gWitness "Monokai" (by decide) (by decide)
      (by decide) (by decide) (by decide) (by decide) (by decide)).1.2.1.1,
   (claim_C3_amended_round_trip envDark gWitness "Monokai" (by decide) (by decide)
      (by decide) (by decide) (by decide) (by decide) (by decide)).1.2.2.1,
   ((claim_C3_amended_round_trip envDark gWitness "Monokai" (by decide) (by decide)
      (by decide) (by decide) (by decide) (by decide) (by decide)).2.1
      [(("workbench", "colorTheme"), Value.str "Hypatia Light"),
       (("hypatia.style", "autotheme"), Value.bool true),
       (("hypatia.style", "variant"), Value.str "dark")] "Hypatia Light"
      (by decide) (by decide) (by decide)).2.2,
   (claim_C3_amended_round_trip envDark gWitness "Monokai" (by decide) (by decide)
      (by decide) (by decide) (by decide) (by decide) (by decide)).2.2
      [(("editor", "semanticHighlighting.enabled"), Value.null),
       (("hypatia.style", "semantichighlighting"), Value.str "on")] true
      (by decide) (by decide)⟩

/-- C4 (amended): when an apply operation actually needs to change the
live value, it performs exactly one host write and the second invocation
performs none (and does not throw); but when the live value already equals
the desired one, even the first invocation writes nothing, so a pair of
apply calls performs *at most* one write, not always exactly one. -/
theorem claim_C4_amended_idempotence (env : Env)
    (g : List ((String × String) × Value)) (s : String) (b : Bool)
    (htok : isDeepStrictEqual (tierGet g "editor" "tokenColorCustomizations")
      (tokNextOf env (mkGlobalWorld g)) = false)
    (hen : getAutoThemeEnabled (mkGlobalWorld g) = true)
    (hcur : tierGet g "workbench" "colorTheme" = Value.str s)
    (hs0 : s ≠ "") (hsL : s ≠ "Hypatia Light") (hsD : s ≠ "Hypatia Dark")
    (hmode : getSemanticMode (mkGlobalWorld g) = cond b "on" "off")
    (hne2 : tierGet g "editor" "semanticHighlighting.enabled" ≠ Value.bool b) :
    (((applyTokenOverlay env true (mkGlobalWorld g)).1).writeLog.length = 1) ∧
    (((applyTokenOverlay env true
        (applyTokenOverlay env true (mkGlobalWorld g)).1).1).writeLog
      = ((applyTokenOverlay env true (mkGlobalWorld g)).1).writeLog) ∧
    ((applyTokenOverlay env true (applyTokenOverlay env true (mkGlobalWorld g)).1).2
      = false) ∧
    (((applyWholeTheme env true (mkGlobalWorld g)).1).writeLog.length = 1) ∧
    (applyWholeTheme env true (applyWholeTheme env true (mkGlobalWorld g)).1
      = ((applyWholeTheme env true (mkGlobalWorld g)).1, false)) ∧
    (((applySemanticOverride true (mkGlobalWorld g)).1).writeLog.length = 1) ∧
    (((applySemanticOverride true
        (applySemanticOverride true (mkGlobalWorld g)).1).1).writeLog
      = ((applySemanticOverride true (mkGlobalWorld g)).1).writeLog) ∧
    ((applySemanticOverride true
        (applySemanticOverride true (mkGlobalWorld g)).1).2 = false) := by
  refine ⟨?_, (applyTokenOverlay_second env g htok).1,
    (applyTokenOverlay_second env g htok).2, ?_,
    applyWholeTheme_second env g s hen hcur hs0 hsL hsD, ?_,
    (applySemanticOverride_second g b hmode hne2).1,
    (applySemanticOverride_second g b hmode hne2).2⟩
  · rw [applyTokenOverlay_clean env g htok]
    rfl
  · rw [applyWholeTheme_clean_foreign env g s hen hcur hs0 hsL hsD]
    rfl
  · rw [applySemanticOverride_clean_write g b hmode hne2]
    rfl

/-- C4 witness: on the concrete input that needs all three writes, each
first apply logs exactly one write and each immediate re-apply logs
nothing and does not throw. -/
theorem claim_C4_amended_idempotence_witness :
    (((applyTokenOverlay envDark true (mkGlobalWorld gWitness)).1).writeLog.length
      = 1) ∧
    (((applyTokenOverlay envDark true
        (applyTokenOverlay envDark true (mkGlobalWorld gWitness)).1).1).writeLog
      = ((applyTokenOverlay envDark true (mkGlobalWorld gWitness)).1).writeLog) ∧
    (applyWholeTheme envDark true
        (applyWholeTheme envDark true (mkGlobalWorld gWitness)).1
      = ((applyWholeTheme envDark true (mkGlobalWorld gWitness)).1, false)) ∧
    (((applySemanticOverride true
        (applySemanticOverride true (mkGlobalWorld gWitness)).1).1).writeLog
      = ((applySemanticOverride true (mkGlobalWorld gWitness)).1).writeLog) :=
  ⟨(claim_C4_amended_idempotence envDark gWitness "Monokai" true (by decide)
      (by decide) (by decide) (by decide) (by decide) (by decide) (by decide)
      (by decide)).1,
   (claim_C4_amended_idempotence envDark gWitness "Monokai" true (by decide)
      (by decide) (by decide) (by decide) (by decide) (by decide) (by decide)
      (by decide)).2.1,
   (claim_C4_amended_idempotence envDark gWitness "Monokai" true (by decide)
      (by decide) (by decide) (by decide) (by decide) (by decide) (by decide)
      (by decide)).2.2.2.2.1,
   (claim_C4_amended_idempotence envDark gWitness "Monokai" true (by decide)
      (by decide) (by decide) (by decide) (by decide) (by decide) (by decide)
      (by decide)).2.2.2.2.2.2.1⟩

/-- C5 (amended): when a foreign theme label is live as autotheme applies,
that label is captured exactly as the saved value and, if the live theme
is untouched in between, written back exactly on restore; and if the live
theme was changed externally to any value that is *not one of the two
bundled labels*, restore performs no write, keeps the external value, and
only clears its state — but an external change *to the other bundled
label* is not protected (see the counterexample). -/
theorem claim_C5_amended_foreign_theme (env : Env)
    (g : List ((String × String) × Value)) (s : String)
    (hen : getAutoThemeEnabled (mkGlobalWorld g) = true)
    (hcur : tierGet g "workbench" "colorTheme" = Value.str s)
    (hs0 : s ≠ "") (hsL : s ≠ "Hypatia Light") (hsD : s ≠ "Hypatia Dark") :
    (gsGetW (applyWholeTheme env true (mkGlobalWorld g)).1 KEY_TH_SAVED Value.undef
      = Value.str s) ∧
    (getMerged ((restoreWholeTheme true
        (applyWholeTheme env true (mkGlobalWorld g)).1).1).store
        "workbench" "colorTheme" = Value.str s) ∧
    (∀ x : Value,
      (∀ c, x = Value.str c → c ≠ "Hypatia Dark" ∧ c ≠ "Hypatia Light") →
      restoreWholeTheme true
        (⟨writeAt ((applyWholeTheme env true (mkGlobalWorld g)).1).store
            "workbench" "colorTheme" ConfigurationTarget.Global x,
          ((applyWholeTheme env true (mkGlobalWorld g)).1).gstate,
          ((applyWholeTheme env true (mkGlobalWorld g)).1).switching,
          ((applyWholeTheme env true (mkGlobalWorld g)).1).writeLog⟩ : World)
        = (⟨⟨[], tierSet (tierSet g "workbench" "colorTheme"
              (Value.str (themeLabelForVariant (resolveVariant (mkGlobalWorld g) env))))
              "workbench" "colorTheme" x, [], []⟩,
            [(KEY_TH_TARGET, Value.undef), (KEY_TH_SAVED, Value.undef),
             (KEY_TH_APPLIED, Value.undef)],
            false,
            ((applyWholeTheme env true (mkGlobalWorld g)).1).writeLog⟩, false)) := by
  refine ⟨?_, (restoreWholeTheme_afterClean env g s hen hcur hs0 hsL hsD).1, ?_⟩
  · rw [applyWholeTheme_clean_foreign env g s hen hcur hs0 hsL hsD]
    simp [gsGetW, List.find?, KEY_TH_SAVED, KEY_TH_TARGET, KEY_TH_APPLIED]
  · intro x hx
    rw [applyWholeTheme_clean_foreign env g s hen hcur hs0 hsL hsD]
    simp only [writeAt]
    rw [restoreWholeTheme_applied_skip _ (Value.str s) _
      (fun c hc => hx c ((tierGet_tierSet_self _ _ _ _).symm.trans hc))]

/-- C5 witness: at the concrete Monokai input, the foreign label is
captured and written back exactly on an untouched restore. -/
theorem claim_C5_amended_foreign_theme_witness :
    (gsGetW (applyWholeTheme envDark true (mkGlobalWorld gWitness)).1
        KEY_TH_SAVED Value.undef = Value.str "Monokai") ∧
    (getMerged ((restoreWholeTheme true
        (applyWholeTheme envDark true (mkGlobalWorld gWitness)).1).1).store
        "workbench" "colorTheme" = Value.str "Monokai") :=
  ⟨(claim_C5_amended_foreign_theme envDark gWitness "Monokai" (by decide) (by decide)
      (by decide) (by decide) (by decide)).1,
   (claim_C5_amended_foreign_theme envDark gWitness "Monokai" (by decide) (by decide)
      (by decide) (by decide) (by decide)).2.1⟩

/-- C6 (amended): after apply of the token overlay, stripping every
marker-prefixed rule from the live customization object yields exactly the
pre-apply unmarked rules — in their original order and unmutated — and
reassigning them reconstructs the *normalised* pre-apply base (the
pre-apply object with a materialised `textMateRules` key); when the
pre-apply object already had a `textMateRules` array of unmarked rules and
no duplicate keys, that base is the pre-apply object itself. -/
theorem claim_C6_amended_overlay_isolation (env : Env)
    (g : List ((String × String) × Value))
    (htok : isDeepStrictEqual (tierGet g "editor" "tokenColorCustomizations")
      (tokNextOf env (mkGlobalWorld g)) = false) :
    (stripInjectedRules (getField (getMerged ((applyTokenOverlay env true
        (mkGlobalWorld g)).1).store "editor" "tokenColorCustomizations")
        "textMateRules") = tokBaseRulesOf (mkGlobalWorld g)) ∧
    (objAssign (asPlainObject (getMerged ((applyTokenOverlay env true
        (mkGlobalWorld g)).1).store "editor" "tokenColorCustomizations"))
      [("textMateRules", Value.arr (stripInjectedRules (getField
        (getMerged ((applyTokenOverlay env true (mkGlobalWorld g)).1).store
          "editor" "tokenColorCustomizations") "textMateRules")))]
      = tokBaseOf (mkGlobalWorld g)) ∧
    (∀ (fs : List (String × Value)) (rs : List Value),
      tierGet g "editor" "tokenColorCustomizations" = Value.obj fs →
      (fs.map Prod.fst).Nodup →
      getField (Value.obj fs) "textMateRules" = Value.arr rs →
      (∀ r ∈ rs, ruleIsMarked INJECTED_RULE_PFX r = false) →
      tokBaseOf (mkGlobalWorld g) = Value.obj fs) := by
  refine ⟨?_, ?_, ?_⟩
  · rw [tokLive_afterClean env g htok]
    exact stripInjected_getField_next env (mkGlobalWorld g)
  · rw [tokLive_afterClean env g htok]
    exact strip_reassign_next env (mkGlobalWorld g)
  · intro fs rs hpre hnd hrules hunmarked
    exact tokBaseOf_exact g fs rs hpre hnd hrules hunmarked

/-- C6 witness: the strip-and-reassign reconstruction at the concrete
`{ foo: 1 }` input lands on the normalised base, and on a second tier
whose pre-apply object already carries an (empty, unmarked)
`textMateRules` array the base is exactly the pre-apply object. -/
theorem claim_C6_amended_overlay_isolation_witness :
    (stripInjectedRules (getField (getMerged ((applyTokenOverlay envDark true
        (mkGlobalWorld gWitness)).1).store "editor" "tokenColorCustomizations")
        "textMateRules") = tokBaseRulesOf (mkGlobalWorld gWitness)) ∧
    (tokBaseOf (mkGlobalWorld
        [(("editor", "tokenColorCustomizations"),
          Value.obj [("textMateRules", Value.arr [])]),
         (("hypatia.style", "variant"), Value.str "dark")])
      = Value.obj [("textMateRules", Value.arr [])]) :=
  ⟨(claim_C6_amended_overlay_isolation envDark gWitness (by decide)).1,
   (claim_C6_amended_overlay_isolation envDark
      [(("editor", "tokenColorCustomizations"),
        Value.obj [("textMateRules", Value.arr [])]),
       (("hypatia.style", "variant"), Value.str "dark")] (by decide)).2.2
      [("textMateRules", Value.arr [])] [] (by decide) (by decide) (by decide)
      (fun r hr => absurd hr (List.not_mem_nil r))⟩

/-- C7 (amended): when the host rejects the write of an apply operation,
the failure propagates to the caller, the live configuration store is
unmodified and the applied flag and target key are never set — but the
speculative saved-value capture performed before the failed write is *not*
rolled back: the saved key keeps the captured value. -/
theorem claim_C7_amended_failed_write (env : Env)
    (g : List ((String × String) × Value)) (s : String)
    (htok : isDeepStrictEqual (tierGet g "editor" "tokenColorCustomizations")
      (tokNextOf env (mkGlobalWorld g)) = false)
    (hen : getAutoThemeEnabled (mkGlobalWorld g) = true)
    (hcur : tierGet g "workbench" "colorTheme" = Value.str s)
    (hs0 : s ≠ "") (hsL : s ≠ "Hypatia Light") (hsD : s ≠ "Hypatia Dark") :
    (applyTokenOverlay env false (mkGlobalWorld g) =
      (⟨⟨[], g, [], []⟩,
        [(KEY_TOK_SAVED, tokBaseOf (mkGlobalWorld g))],
        false,
        [("editor", "tokenColorCustomizations", ConfigurationTarget.Global,
          tokNextOf env (mkGlobalWorld g))]⟩, true)) ∧
    (applyWholeTheme env false (mkGlobalWorld g) =
      (⟨⟨[], g, [], []⟩,
        [(KEY_TH_SAVED, Value.str s)],
        false,
        [("workbench", "colorTheme", ConfigurationTarget.Global,
          Value.str (themeLabelForVariant (resolveVariant (mkGlobalWorld g) env)))]⟩,
       true)) :=
  ⟨applyTokenOverlay_clean_fail env g htok,
   applyWholeTheme_clean_foreign_fail env g s hen hcur hs0 hsL hsD⟩

/-- C7 witness: at the concrete Monokai input with a rejecting host, both
apply operations throw, leave the store untouched, and keep the
speculative saved capture in the state store. -/
theorem claim_C7_amended_failed_write_witness :
    (applyTokenOverlay envDark false (mkGlobalWorld gWitness) =
      (⟨⟨[], gWitness, [], []⟩,
        [(KEY_TOK_SAVED, tokBaseOf (mkGlobalWorld gWitness))],
        false,
        [("editor", "tokenColorCustomizations", ConfigurationTarget.Global,
          tokNextOf envDark (mkGlobalWorld gWitness))]⟩, true)) ∧
    (applyWholeTheme envDark false (mkGlobalWorld gWitness) =
      (⟨⟨[], gWitness, [], []⟩,
        [(KEY_TH_SAVED, Value.str "Monokai")],
        false,
        [("workbench", "colorTheme", ConfigurationTarget.Global,
          Value.str (themeLabelForVariant
            (resolveVariant (mkGlobalWorld gWitness) envDark)))]⟩, true)) :=
  ⟨(claim_C7_amended_failed_write envDark gWitness "Monokai" (by decide) (by decide)
      (by decide) (by decide) (by decide) (by decide)).1,
   (claim_C7_amended_failed_write envDark gWitness "Monokai" (by decide) (by decide)
      (by decide) (by decide) (by decide) (by decide)).2⟩
